import Mathlib

/-!
Verification of the BE-Inventory-management backend (TypeScript/Prisma).

This file gives a shallow embedding of the data model and of the service
operations that mutate stock (StockService, SalesOrderService,
PurchaseOrderService, ProductService), of the error-handling middleware
(`errorHandler`) and of the authorization middleware (`authorize`), and
proves or refutes the frozen claims about them.

Database tables are embedded as Lean lists (list order models table order,
so Prisma's `findFirst` is `List.find?`).  Machine numbers are `Int`
(quantities) or `Nat` (ids); ids produced by `AUTOINCREMENT` are modelled
with an explicit counter in the database state.  Every Prisma
`$transaction` is a pure function `DB → Except AppError …`: a thrown
`AppError` aborts the transaction and rolls back, so the error case
returns no new state.
-/

namespace Inventory

/-- Embedding of the application error class of `src/middleware/errorHandler.ts`:
a message plus an HTTP status code. -/
structure AppError where
  message : String
  statusCode : Nat
deriving Repr, DecidableEq

/-- Embedding of a `Location` row (`prisma/migrations/...: CREATE TABLE "Location"`). -/
structure Location where
  id : Nat
  name : String
  warehouseId : Nat
deriving Repr, DecidableEq

/-- Embedding of a `Stock` row (`CREATE TABLE "Stock"`). -/
structure Stock where
  id : Nat
  productId : Nat
  warehouseId : Nat
  locationId : Nat
  quantity : Int
deriving Repr, DecidableEq

/-- Movement type of a stock movement: the TypeScript union `'IN' | 'OUT'`. -/
inductive MovementType where
  | IN
  | OUT
deriving Repr, DecidableEq

/-- Adjustment type of a stock adjustment: the TypeScript union `'ADD' | 'REMOVE'`. -/
inductive AdjustmentType where
  | ADD
  | REMOVE
deriving Repr, DecidableEq

/-- Embedding of a `StockMovement` row (`CREATE TABLE "StockMovement"`). -/
structure StockMovement where
  stockId : Nat
  movementType : MovementType
  quantity : Int
  reason : String
deriving Repr, DecidableEq

/-- Embedding of a `StockAdjustment` row (`CREATE TABLE "StockAdjustment"`). -/
structure StockAdjustment where
  stockId : Nat
  adjustmentType : AdjustmentType
  quantity : Int
  reason : String
  approvedById : Nat
deriving Repr, DecidableEq

/-- Embedding of a sales- or purchase-order item (`SalesOrderItem`,
`PurchaseOrderItem`): the fields the services read. -/
structure OrderItem where
  productId : Nat
  quantity : Int
  unitPrice : Int
deriving Repr, DecidableEq

/-- Embedding of a `SalesOrder` row together with its items relation. -/
structure SalesOrder where
  id : Nat
  customerId : Nat
  status : String
  items : List OrderItem
deriving Repr, DecidableEq

/-- Embedding of a `PurchaseOrder` row together with its items relation. -/
structure PurchaseOrder where
  id : Nat
  supplierId : Nat
  status : String
  items : List OrderItem
deriving Repr, DecidableEq

/-- Embedding of a `Product` row (`CREATE TABLE "Product"`); the REAL price
columns are opaque to every verified property and carried as integers. -/
structure Product where
  id : Nat
  name : String
  sku : String
  barcode : String
  categoryId : Nat
  supplierId : Nat
  warehouseId : Nat
  unitPrice : Int
  price : Int
deriving Repr, DecidableEq

/-- Embedding of a `Category` row. -/
structure Category where
  id : Nat
  name : String
deriving Repr, DecidableEq

/-- Embedding of a `Supplier` row. -/
structure Supplier where
  id : Nat
  name : String
  email : String
deriving Repr, DecidableEq

/-- Embedding of a `Warehouse` row. -/
structure Warehouse where
  id : Nat
  name : String
  capacity : Int
  address : String
deriving Repr, DecidableEq

/-- The database state seen by the services.  List order models table order
(`findFirst` = `List.find?`); the `next…Id` counters model SQLite
`AUTOINCREMENT` primary keys. -/
structure DB where
  stocks : List Stock
  locations : List Location
  products : List Product
  categories : List Category
  suppliers : List Supplier
  warehouses : List Warehouse
  movements : List StockMovement
  adjustments : List StockAdjustment
  salesOrders : List SalesOrder
  purchaseOrders : List PurchaseOrder
  nextStockId : Nat
  nextSalesOrderId : Nat
  nextProductId : Nat
deriving Repr, DecidableEq

/-- Embedding of `prisma.stock.update({ where: { id }, data: { quantity } })`:
set the quantity of the row with the given primary key. -/
def updateStockQuantity (stocks : List Stock) (id : Nat) (q : Int) : List Stock :=
  stocks.map (fun s => if s.id = id then { s with quantity := q } else s)

end Inventory

namespace Inventory

/-! ## StockService (`src/services/stock.service.ts`) -/

/-- Embedding of `StockService.createStock`.  Validates that the location
exists and belongs to the given warehouse, rejects a duplicate
(productId, locationId) pair, then inserts a fresh row. -/
def createStock (db : DB) (productId warehouseId locationId : Nat) (quantity : Int) :
    Except AppError (Stock × DB) :=
  match db.locations.find? (fun l => l.id = locationId) with
  | none => .error { message := "Invalid location for warehouse", statusCode := 400 }
  | some location =>
    if location.warehouseId ≠ warehouseId then
      .error { message := "Invalid location for warehouse", statusCode := 400 }
    else
      match db.stocks.find? (fun s => s.productId = productId ∧ s.locationId = locationId) with
      | some _ =>
          .error { message := "Stock already exists for this product in this location",
                   statusCode := 400 }
      | none =>
          let s : Stock :=
            { id := db.nextStockId, productId := productId, warehouseId := warehouseId,
              locationId := locationId, quantity := quantity }
          .ok (s, { db with stocks := db.stocks ++ [s], nextStockId := db.nextStockId + 1 })

/-- Embedding of `StockService.recordMovement`: inside one transaction, look
the stock up, reject an `OUT` movement that exceeds the current quantity,
update the quantity and append the movement record. -/
def recordMovement (db : DB) (stockId : Nat) (movementType : MovementType)
    (quantity : Int) (reason : String) : Except AppError DB :=
  match db.stocks.find? (fun s => s.id = stockId) with
  | none => .error { message := "Stock not found", statusCode := 404 }
  | some stock =>
    if movementType = .OUT ∧ stock.quantity < quantity then
      .error { message := "Insufficient stock quantity", statusCode := 400 }
    else
      let newQuantity :=
        if movementType = .IN then stock.quantity + quantity else stock.quantity - quantity
      let db := { db with stocks := updateStockQuantity db.stocks stockId newQuantity }
      .ok { db with
            movements := db.movements ++
              [{ stockId := stockId, movementType := movementType,
                 quantity := quantity, reason := reason }] }

/-- Embedding of `StockService.adjustStock`: like `recordMovement` but with
`ADD`/`REMOVE` adjustment types and a `StockAdjustment` record. -/
def adjustStock (db : DB) (stockId : Nat) (adjustmentType : AdjustmentType)
    (quantity : Int) (reason : String) (approvedById : Nat) : Except AppError DB :=
  match db.stocks.find? (fun s => s.id = stockId) with
  | none => .error { message := "Stock not found", statusCode := 404 }
  | some stock =>
    if adjustmentType = .REMOVE ∧ stock.quantity < quantity then
      .error { message := "Insufficient stock quantity", statusCode := 400 }
    else
      let newQuantity :=
        if adjustmentType = .ADD then stock.quantity + quantity else stock.quantity - quantity
      let db := { db with stocks := updateStockQuantity db.stocks stockId newQuantity }
      .ok { db with
            adjustments := db.adjustments ++
              [{ stockId := stockId, adjustmentType := adjustmentType,
                 quantity := quantity, reason := reason, approvedById := approvedById }] }

/-- Embedding of `StockService.transferStock`: inside one transaction, check
the source stock and its quantity, check the target location, find or
create (with quantity 0) the target stock row, then apply the two quantity
updates — each computed from the row snapshots read before either update —
and append the two movement records.  The service's return value is a
re-query of the two rows, so the new database state carries all of it. -/
def transferStock (db : DB) (sourceStockId targetLocationId : Nat)
    (quantity : Int) (reason : String) : Except AppError DB :=
  match db.stocks.find? (fun s => s.id = sourceStockId) with
  | none => .error { message := "Source stock not found", statusCode := 404 }
  | some sourceStock =>
    if sourceStock.quantity < quantity then
      .error { message := "Insufficient stock quantity", statusCode := 400 }
    else
      match db.locations.find? (fun l => l.id = targetLocationId) with
      | none => .error { message := "Target location not found", statusCode := 404 }
      | some targetLocation =>
        let found := db.stocks.find?
          (fun s => s.productId = sourceStock.productId ∧ s.locationId = targetLocationId)
        let targetStock : Stock :=
          match found with
          | some t => t
          | none =>
              { id := db.nextStockId, productId := sourceStock.productId,
                warehouseId := targetLocation.warehouseId,
                locationId := targetLocationId, quantity := 0 }
        let db1 : DB :=
          match found with
          | some _ => db
          | none =>
              { db with stocks := db.stocks ++ [targetStock],
                        nextStockId := db.nextStockId + 1 }
        let db2 := { db1 with
          stocks := updateStockQuantity db1.stocks sourceStockId
            (sourceStock.quantity - quantity) }
        let db3 := { db2 with
          stocks := updateStockQuantity db2.stocks targetStock.id
            (targetStock.quantity + quantity) }
        .ok { db3 with
              movements := db3.movements ++
                [{ stockId := sourceStockId, movementType := .OUT, quantity := quantity,
                   reason := "Transfer out: " ++ reason },
                 { stockId := targetStock.id, movementType := .IN, quantity := quantity,
                   reason := "Transfer in: " ++ reason }] }

/-- Embedding of `ProductService.getProductStock`'s total: the sum of the
quantities of every `Stock` row of the product. -/
def totalQuantity (db : DB) (productId : Nat) : Int :=
  ((db.stocks.filter (fun s => s.productId = productId)).map (fun s => s.quantity)).sum

/-! ## SalesOrderService (`src/services/salesOrder.service.ts`) -/

/-- One entry of the unavailable-items report built by
`SalesOrderService.createSalesOrder`'s stock check. -/
structure StockShortage where
  productName : String
  available : Int
  requested : Int
deriving Repr, DecidableEq

/-- Embedding of one item's stock-availability check in `createSalesOrder`:
`none` when the item is available (`isAvailable: true`), otherwise the
shortage report entry.  The check reads the database as it is before the
transaction starts. -/
def stockCheckFailure (db : DB) (item : OrderItem) : Option StockShortage :=
  match db.stocks.find? (fun s => s.productId = item.productId) with
  | none =>
      some { productName := "Unknown product", available := 0, requested := item.quantity }
  | some stock =>
      if stock.quantity < item.quantity then
        some { productName :=
                 ((db.products.find? (fun p => p.id = stock.productId)).map
                   (fun p => p.name)).getD "Unknown product",
               available := stock.quantity, requested := item.quantity }
      else none

/-- Rendering of one shortage entry in the error message of
`createSalesOrder`. -/
def shortageText (f : StockShortage) : String :=
  f.productName ++ " (requested: " ++ toString f.requested ++ ", available: " ++
    toString f.available ++ ")"

/-- Embedding of the stock-reduction loop inside `createSalesOrder`'s
transaction: for each item, re-read the first stock row of the item's
product from the current state, subtract the item quantity and append an
`OUT` movement; items whose product has no stock row are skipped. -/
def salesReduceLoop (stocks : List Stock) (movements : List StockMovement)
    (orderId : Nat) (items : List OrderItem) : List Stock × List StockMovement :=
  items.foldl
    (fun acc item =>
      match acc.1.find? (fun s => s.productId = item.productId) with
      | none => acc
      | some stock =>
          (updateStockQuantity acc.1 stock.id (stock.quantity - item.quantity),
           acc.2 ++ [{ stockId := stock.id, movementType := .OUT, quantity := item.quantity,
                       reason := "Sales Order #" ++ toString orderId }]))
    (stocks, movements)

/-- Embedding of `SalesOrderService.createSalesOrder`: reject an empty item
list, run the availability check on the pre-transaction state, then in one
transaction create the order (status `"open"`) and run the reduction
loop. -/
def createSalesOrder (db : DB) (customerId : Nat) (items : List OrderItem) :
    Except AppError (SalesOrder × DB) :=
  if items.isEmpty then
    .error { message := "Sales order must have at least one item", statusCode := 400 }
  else
    let failures := items.filterMap (stockCheckFailure db)
    if failures.isEmpty then
      let order : SalesOrder :=
        { id := db.nextSalesOrderId, customerId := customerId,
          status := "open", items := items }
      let db1 := { db with salesOrders := db.salesOrders ++ [order],
                           nextSalesOrderId := db.nextSalesOrderId + 1 }
      let res := salesReduceLoop db1.stocks db1.movements order.id items
      .ok (order, { db1 with stocks := res.1, movements := res.2 })
    else
      .error { message := "Insufficient stock for items: " ++
                 String.intercalate ", " (failures.map shortageText),
               statusCode := 400 }

/-- Embedding of the stock-restoration loop inside `cancelSalesOrder`'s
transaction: for each order item, re-read the first stock row of the
item's product, add the item quantity back and append an `IN` movement;
items whose product has no stock row are skipped. -/
def salesRestoreLoop (stocks : List Stock) (movements : List StockMovement)
    (orderId : Nat) (items : List OrderItem) : List Stock × List StockMovement :=
  items.foldl
    (fun acc item =>
      match acc.1.find? (fun s => s.productId = item.productId) with
      | none => acc
      | some stock =>
          (updateStockQuantity acc.1 stock.id (stock.quantity + item.quantity),
           acc.2 ++ [{ stockId := stock.id, movementType := .IN, quantity := item.quantity,
                       reason := "Sales Order #" ++ toString orderId ++ " cancelled" }]))
    (stocks, movements)

/-- Embedding of `SalesOrderService.cancelSalesOrder`: look the order up,
reject an already-cancelled or completed order, otherwise restore the
stock of every item and set the status to `"cancelled"`. -/
def cancelSalesOrder (db : DB) (id : Nat) : Except AppError (SalesOrder × DB) :=
  match db.salesOrders.find? (fun o => o.id = id) with
  | none => .error { message := "Sales order not found", statusCode := 404 }
  | some order =>
    if order.status = "cancelled" then
      .error { message := "Order is already cancelled", statusCode := 400 }
    else if order.status = "completed" then
      .error { message := "Cannot cancel a completed order", statusCode := 400 }
    else
      let res := salesRestoreLoop db.stocks db.movements order.id order.items
      let orders := db.salesOrders.map
        (fun o => if o.id = id then { o with status := "cancelled" } else o)
      .ok ({ order with status := "cancelled" },
           { db with stocks := res.1, movements := res.2, salesOrders := orders })

/-! ## PurchaseOrderService (`src/services/purchaseOrder.service.ts`) -/

/-- Embedding of the stock-update loop inside `receivePurchaseOrder`'s
transaction: for each order item, read the first stock row of the item's
product from the current state; if there is one, add the item quantity
and append an `IN` movement, otherwise skip the item. -/
def receiveLoop (stocks : List Stock) (movements : List StockMovement)
    (orderId : Nat) (items : List OrderItem) : List Stock × List StockMovement :=
  items.foldl
    (fun acc item =>
      match acc.1.find? (fun s => s.productId = item.productId) with
      | none => acc
      | some stock =>
          (updateStockQuantity acc.1 stock.id (stock.quantity + item.quantity),
           acc.2 ++ [{ stockId := stock.id, movementType := .IN, quantity := item.quantity,
                       reason := "Purchase Order #" ++ toString orderId ++ " received" }]))
    (stocks, movements)

/-- Embedding of `PurchaseOrderService.receivePurchaseOrder`: look the order
up, reject an already-received order, run the stock-update loop, and set
the status to `"received"`. -/
def receivePurchaseOrder (db : DB) (id : Nat) : Except AppError (PurchaseOrder × DB) :=
  match db.purchaseOrders.find? (fun o => o.id = id) with
  | none => .error { message := "Purchase order not found", statusCode := 404 }
  | some order =>
    if order.status = "received" then
      .error { message := "Purchase order already received", statusCode := 400 }
    else
      let res := receiveLoop db.stocks db.movements order.id order.items
      let orders := db.purchaseOrders.map
        (fun o => if o.id = id then { o with status := "received" } else o)
      .ok ({ order with status := "received" },
           { db with stocks := res.1, movements := res.2, purchaseOrders := orders })

/-! ## ProductService (`src/services/product.service.ts`) -/

/-- Request body of `ProductService.createProduct`. -/
structure ProductData where
  name : String
  sku : String
  barcode : String
  categoryId : Nat
  supplierId : Nat
  warehouseId : Nat
  unitPrice : Int
  price : Int
deriving Repr, DecidableEq

/-- Embedding of `ProductService.createProduct`: reject a duplicate SKU or
barcode (`findFirst` over the OR of the two), validate the referenced
category, supplier and warehouse, then insert the product. -/
def createProduct (db : DB) (data : ProductData) : Except AppError (Product × DB) :=
  match db.products.find? (fun p => p.sku = data.sku ∨ p.barcode = data.barcode) with
  | some existing =>
      .error { message := "Product with same " ++
                 (if existing.sku = data.sku then "SKU" else "barcode") ++ " already exists",
               statusCode := 400 }
  | none =>
    match db.categories.find? (fun c => c.id = data.categoryId) with
    | none => .error { message := "Category not found", statusCode := 400 }
    | some _ =>
      match db.suppliers.find? (fun s => s.id = data.supplierId) with
      | none => .error { message := "Supplier not found", statusCode := 400 }
      | some _ =>
        match db.warehouses.find? (fun w => w.id = data.warehouseId) with
        | none => .error { message := "Warehouse not found", statusCode := 400 }
        | some _ =>
          let p : Product :=
            { id := db.nextProductId, name := data.name, sku := data.sku,
              barcode := data.barcode, categoryId := data.categoryId,
              supplierId := data.supplierId, warehouseId := data.warehouseId,
              unitPrice := data.unitPrice, price := data.price }
          .ok (p, { db with products := db.products ++ [p],
                            nextProductId := db.nextProductId + 1 })

/-! ## The stock-mutating operations as a step relation -/

/-- The service operations that mutate stock, as one operation type. -/
inductive Op where
  | recordMovement (stockId : Nat) (movementType : MovementType)
      (quantity : Int) (reason : String)
  | adjustStock (stockId : Nat) (adjustmentType : AdjustmentType)
      (quantity : Int) (reason : String) (approvedById : Nat)
  | transferStock (sourceStockId targetLocationId : Nat) (quantity : Int) (reason : String)
  | createSalesOrder (customerId : Nat) (items : List OrderItem)
  | cancelSalesOrder (id : Nat)
  | receivePurchaseOrder (id : Nat)
  | createStock (productId warehouseId locationId : Nat) (quantity : Int)
deriving Repr, DecidableEq

/-- Apply one operation; an error leaves the transaction rolled back, so the
resulting state is meaningful only in the `.ok` case. -/
def applyOp (db : DB) : Op → Except AppError DB
  | .recordMovement stockId movementType quantity reason =>
      recordMovement db stockId movementType quantity reason
  | .adjustStock stockId adjustmentType quantity reason approvedById =>
      adjustStock db stockId adjustmentType quantity reason approvedById
  | .transferStock sourceStockId targetLocationId quantity reason =>
      transferStock db sourceStockId targetLocationId quantity reason
  | .createSalesOrder customerId items =>
      (createSalesOrder db customerId items).map (fun r => r.2)
  | .cancelSalesOrder id => (cancelSalesOrder db id).map (fun r => r.2)
  | .receivePurchaseOrder id => (receivePurchaseOrder db id).map (fun r => r.2)
  | .createStock productId warehouseId locationId quantity =>
      (createStock db productId warehouseId locationId quantity).map (fun r => r.2)

/-- Apply a sequence of operations; a failed operation rolls its transaction
back and leaves the state unchanged. -/
def applyOps (db : DB) : List Op → DB
  | [] => db
  | op :: ops =>
      match applyOp db op with
      | .ok db1 => applyOps db1 ops
      | .error _ => applyOps db ops

/-! ## Schema uniqueness declarations (`prisma/migrations/..._init/migration.sql`) -/

/-- The `CREATE UNIQUE INDEX` statements of the initial migration, as
(table, indexed columns) pairs.  The migration declares no other
uniqueness constraint beyond the primary keys. -/
def migrationUniqueIndexes : List (String × List String) :=
  [("User", ["username"]),
   ("Category", ["name"]),
   ("Supplier", ["email"]),
   ("Product", ["sku"]),
   ("Product", ["barcode"])]

/-! ## Derived notions used by the verification -/

/-- One step of the per-item stock loops: add `d` to the quantity of the
first stock row of product `p` (the row `findFirst` returns), leaving the
list unchanged when the product has no row.  Each loop body of
`createSalesOrder`, `cancelSalesOrder` and `receivePurchaseOrder` is an
instance of this. -/
def bumpFirst (stocks : List Stock) (p : Nat) (d : Int) : List Stock :=
  match stocks.find? (fun s => s.productId = p) with
  | none => stocks
  | some s => updateStockQuantity stocks s.id (s.quantity + d)

/-- Iterated `bumpFirst` over a list of (productId, delta) pairs. -/
def bumpAll (stocks : List Stock) (ds : List (Nat × Int)) : List Stock :=
  ds.foldl (fun st pd => bumpFirst st pd.1 pd.2) stocks

/-- Every stock row has a non-negative quantity. -/
def StocksNonneg (db : DB) : Prop := ∀ s ∈ db.stocks, 0 ≤ s.quantity

/-- The stock primary keys are pairwise distinct and below the
auto-increment counter (what SQLite's `AUTOINCREMENT` guarantees). -/
def StockIdsOK (db : DB) : Prop :=
  (db.stocks.map (fun s => s.id)).Nodup ∧ ∀ s ∈ db.stocks, s.id < db.nextStockId

/-- The sales-order primary keys are below the auto-increment counter. -/
def SalesIdsOK (db : DB) : Prop := ∀ o ∈ db.salesOrders, o.id < db.nextSalesOrderId

/-- Every item stored in a sales or purchase order requests at least 1. -/
def OrdersQtyPos (db : DB) : Prop :=
  (∀ o ∈ db.salesOrders, ∀ it ∈ o.items, 1 ≤ it.quantity) ∧
  (∀ o ∈ db.purchaseOrders, ∀ it ∈ o.items, 1 ≤ it.quantity)

/-- The combined well-formedness the stock-mutation invariant runs over:
non-negative stock, sound auto-increment keys, and positive requested
quantities in every stored order. -/
def GoodState (db : DB) : Prop :=
  StocksNonneg db ∧ StockIdsOK db ∧ SalesIdsOK db ∧ OrdersQtyPos db

/-- Precondition of one stock-mutation operation in claim C1's sense: the
operation is one of the six listed stock mutators and every quantity it
requests is at least 1; for `createSalesOrder` the items list mentions
each product at most once (the amendment forced by the duplicate-item
counterexample). -/
def StockMutOpOK : Op → Prop
  | .recordMovement _ _ q _ => 1 ≤ q
  | .adjustStock _ _ q _ _ => 1 ≤ q
  | .transferStock _ _ q _ => 1 ≤ q
  | .createSalesOrder _ items =>
      (∀ it ∈ items, 1 ≤ it.quantity) ∧ (items.map (fun it => it.productId)).Nodup
  | .cancelSalesOrder _ => True
  | .receivePurchaseOrder _ => True
  | .createStock _ _ _ _ => False

/-- At most one `Stock` row per (productId, locationId) pair. -/
def StockKeyUnique (db : DB) : Prop :=
  (db.stocks.map (fun s => (s.productId, s.locationId))).Nodup

/-- Every `Stock` row's `warehouseId` agrees with the warehouse of the
`Location` it references (and that location exists). -/
def StockLocationConsistent (db : DB) : Prop :=
  ∀ s ∈ db.stocks,
    (db.locations.find? (fun l => l.id = s.locationId)).map (fun l => l.warehouseId) =
      some s.warehouseId

/-- Every field of a stock row except its quantity; the stock operations
either leave this list-wise unchanged or append one fresh row. -/
def stripQ (s : Stock) : Nat × Nat × Nat × Nat :=
  (s.id, s.productId, s.warehouseId, s.locationId)

/-- Sum of the quantities the items of a list request for one product. -/
def itemsSum (p : Nat) (items : List OrderItem) : Int :=
  ((items.filter (fun it => it.productId = p)).map (fun it => it.quantity)).sum

/-- Sum of the deltas a (productId, delta) list carries for one product. -/
def deltasSum (p : Nat) (ds : List (Nat × Int)) : Int :=
  ((ds.filter (fun pd => pd.1 = p)).map (fun pd => pd.2)).sum

/-- Small concrete database used to witness the theorems on concrete
inputs: two stocked products, three locations over two warehouses, and a
few orders in various states. -/
def sampleDB : DB :=
  { stocks :=
      [{ id := 1, productId := 1, warehouseId := 1, locationId := 1, quantity := 5 },
       { id := 2, productId := 2, warehouseId := 1, locationId := 2, quantity := 3 }],
    locations :=
      [{ id := 1, name := "A1", warehouseId := 1 },
       { id := 2, name := "A2", warehouseId := 1 },
       { id := 3, name := "B1", warehouseId := 2 }],
    products :=
      [{ id := 1, name := "Widget", sku := "SKU1", barcode := "BC1", categoryId := 1,
         supplierId := 1, warehouseId := 1, unitPrice := 10, price := 15 },
       { id := 2, name := "Gadget", sku := "SKU2", barcode := "BC2", categoryId := 1,
         supplierId := 1, warehouseId := 1, unitPrice := 5, price := 8 }],
    categories := [{ id := 1, name := "General" }],
    suppliers := [{ id := 1, name := "Acme", email := "acme@example.com" }],
    warehouses :=
      [{ id := 1, name := "Main", capacity := 100, address := "1 Main St" },
       { id := 2, name := "Annex", capacity := 50, address := "2 Side St" }],
    movements := [],
    adjustments := [],
    salesOrders :=
      [{ id := 1, customerId := 1, status := "open",
         items := [{ productId := 1, quantity := 2, unitPrice := 10 }] },
       { id := 2, customerId := 1, status := "cancelled",
         items := [{ productId := 1, quantity := 1, unitPrice := 10 }] },
       { id := 3, customerId := 1, status := "completed",
         items := [{ productId := 1, quantity := 1, unitPrice := 10 }] }],
    purchaseOrders :=
      [{ id := 1, supplierId := 1, status := "open",
         items := [{ productId := 1, quantity := 4, unitPrice := 10 },
                   { productId := 3, quantity := 2, unitPrice := 7 }] },
       { id := 2, supplierId := 1, status := "received", items := [] }],
    nextStockId := 3,
    nextSalesOrderId := 4,
    nextProductId := 3 }

/-! ## Error middleware (`src/middleware/errorHandler.ts`) -/

/-- The kinds of error value the middleware distinguishes:
an `AppError`, a `Prisma.PrismaClientKnownRequestError` (carrying its
Prisma error code), or any other `Error`. -/
inductive ErrValue where
  | appError (e : AppError)
  | prismaKnownRequestError (code : String) (message : String)
  | otherError (message : String)
deriving Repr, DecidableEq

/-- The JSON error response the middleware sends: HTTP status plus the
`message` field of the body (the body's `status` field is always the
constant string `"error"`). -/
structure ErrorResponse where
  status : Nat
  message : String
deriving Repr, DecidableEq

/-- Embedding of `errorHandler` from `src/middleware/errorHandler.ts`. -/
def errorHandler : ErrValue → ErrorResponse
  | .appError e => { status := e.statusCode, message := e.message }
  | .prismaKnownRequestError code _ =>
      if code = "P2002" then
        { status := 400, message := "A unique constraint violation occurred" }
      else
        { status := 400, message := "Database operation failed" }
  | .otherError _ => { status := 500, message := "Internal server error" }

/-! ## Authorization middleware (`src/middleware/auth.ts`) -/

/-- The authenticated user attached to a request by `authenticate`. -/
structure AuthUser where
  userId : Nat
  role : String
deriving Repr, DecidableEq

/-- Embedding of the middleware produced by `authorize(...allowedRoles)`:
`none` means the request is passed through unchanged (`next()`),
`some e` means the request is rejected with the error `e`. -/
def authorize (allowedRoles : List String) (user : Option AuthUser) : Option AppError :=
  match user with
  | none => some { message := "Not authorized to access this resource", statusCode := 403 }
  | some u =>
      if allowedRoles.contains u.role then none
      else some { message := "Not authorized to access this resource", statusCode := 403 }

end Inventory

namespace Inventory

/-! ## Lemmas about `updateStockQuantity` and `bumpFirst` -/

theorem map_field_updateStockQuantity {β : Type} (f : Stock → β)
    (hf : ∀ s q, f { s with quantity := q } = f s) (l : List Stock) (i : Nat) (q : Int) :
    (updateStockQuantity l i q).map f = l.map f := by
  unfold updateStockQuantity
  rw [List.map_map]
  congr 1
  funext s
  show f (if s.id = i then { s with quantity := q } else s) = f s
  by_cases h : s.id = i
  · rw [if_pos h]; exact hf s q
  · rw [if_neg h]

theorem find?_updateStockQuantity (K : Stock → Bool)
    (hK : ∀ s q, K { s with quantity := q } = K s) (l : List Stock) (i : Nat) (q : Int) :
    (updateStockQuantity l i q).find? K =
      (l.find? K).map (fun s => if s.id = i then { s with quantity := q } else s) := by
  unfold updateStockQuantity
  have hKg : (K ∘ fun s => if s.id = i then { s with quantity := q } else s) = K := by
    funext s
    show K (if s.id = i then { s with quantity := q } else s) = K s
    by_cases h : s.id = i
    · rw [if_pos h]; exact hK s q
    · rw [if_neg h]
  rw [List.find?_map, hKg]

theorem mem_updateStockQuantity (l : List Stock) (i : Nat) (q : Int) (s' : Stock)
    (h : s' ∈ updateStockQuantity l i q) :
    s' ∈ l ∨ ∃ s ∈ l, s.id = i ∧ s' = { s with quantity := q } := by
  unfold updateStockQuantity at h
  rcases List.mem_map.mp h with ⟨s, hs, rfl⟩
  by_cases hc : s.id = i
  · exact Or.inr ⟨s, hs, hc, by simp [hc]⟩
  · exact Or.inl (by simpa [hc] using hs)

theorem updateStockQuantity_of_not_mem (l : List Stock) (i : Nat) (q : Int)
    (h : ∀ s ∈ l, s.id ≠ i) : updateStockQuantity l i q = l := by
  induction l with
  | nil => rfl
  | cons s rest ih =>
    have hs := h s (by simp)
    have := ih (fun x hx => h x (by simp [hx]))
    simp only [updateStockQuantity, List.map_cons] at *
    rw [if_neg hs, this]

theorem map_field_bumpFirst {β : Type} (f : Stock → β)
    (hf : ∀ s q, f { s with quantity := q } = f s) (l : List Stock) (p : Nat) (d : Int) :
    (bumpFirst l p d).map f = l.map f := by
  unfold bumpFirst
  cases hfind : l.find? (fun s => s.productId = p) with
  | none => rfl
  | some s0 => exact map_field_updateStockQuantity f hf l s0.id (s0.quantity + d)

theorem map_field_bumpAll {β : Type} (f : Stock → β)
    (hf : ∀ s q, f { s with quantity := q } = f s) (ds : List (Nat × Int)) (l : List Stock) :
    (bumpAll l ds).map f = l.map f := by
  induction ds generalizing l with
  | nil => rfl
  | cons pd rest ih =>
    show (bumpAll (bumpFirst l pd.1 pd.2) rest).map f = l.map f
    rw [ih, map_field_bumpFirst f hf]

theorem ids_nodup_bumpFirst (l : List Stock) (p : Nat) (d : Int)
    (h : (l.map (fun s => s.id)).Nodup) :
    ((bumpFirst l p d).map (fun s => s.id)).Nodup := by
  rw [map_field_bumpFirst (fun s => s.id) (fun _ _ => rfl)]
  exact h

theorem find?_bumpFirst_self (l : List Stock) (p : Nat) (d : Int) :
    (bumpFirst l p d).find? (fun s => s.productId = p) =
      (l.find? (fun s => s.productId = p)).map
        (fun s => { s with quantity := s.quantity + d }) := by
  unfold bumpFirst
  cases hfind : l.find? (fun s => s.productId = p) with
  | none => simp [hfind]
  | some s0 =>
    rw [find?_updateStockQuantity (fun s => s.productId = p) (fun _ _ => rfl), hfind]
    simp

theorem find?_bumpFirst_other (l : List Stock) (p p' : Nat) (d : Int)
    (hn : (l.map (fun s => s.id)).Nodup) (hne : p' ≠ p) :
    (bumpFirst l p d).find? (fun s => s.productId = p') =
      l.find? (fun s => s.productId = p') := by
  unfold bumpFirst
  cases hfind : l.find? (fun s => s.productId = p) with
  | none => rfl
  | some s0 =>
    rw [find?_updateStockQuantity (fun s => s.productId = p') (fun _ _ => rfl)]
    cases hfind' : l.find? (fun s => s.productId = p') with
    | none => rfl
    | some r =>
      have hr : r ∈ l := List.mem_of_find?_eq_some hfind'
      have hs0 : s0 ∈ l := List.mem_of_find?_eq_some hfind
      have hrp : r.productId = p' := by simpa using List.find?_some hfind'
      have hs0p : s0.productId = p := by simpa using List.find?_some hfind
      have hrs : r ≠ s0 := fun he => hne (by rw [← hrp, he, hs0p])
      have hid : r.id ≠ s0.id := fun he => hrs (List.inj_on_of_nodup_map hn hr hs0 he)
      simp [hid]

theorem bumpFirst_nonneg (l : List Stock) (p : Nat) (d : Int)
    (h0 : ∀ s ∈ l, 0 ≤ s.quantity)
    (hcase : ∀ s0, l.find? (fun s => s.productId = p) = some s0 → 0 ≤ s0.quantity + d) :
    ∀ s' ∈ bumpFirst l p d, 0 ≤ s'.quantity := by
  unfold bumpFirst
  cases hfind : l.find? (fun s => s.productId = p) with
  | none => exact h0
  | some s0 =>
    intro s' hs'
    rcases mem_updateStockQuantity _ _ _ _ hs' with h | ⟨s, hs, _, rfl⟩
    · exact h0 s' h
    · exact hcase s0 hfind

theorem bumpFirst_nonneg_of_nonneg (l : List Stock) (p : Nat) (d : Int)
    (h0 : ∀ s ∈ l, 0 ≤ s.quantity) (hd : 0 ≤ d) :
    ∀ s' ∈ bumpFirst l p d, 0 ≤ s'.quantity := by
  refine bumpFirst_nonneg l p d h0 (fun s0 hfind => ?_)
  have := h0 s0 (List.mem_of_find?_eq_some hfind)
  omega

theorem nodup_ids_cons_of_bump (s : Stock) (rest : List Stock) (p : Nat) (d : Int)
    (hn : ((s :: rest).map (fun x => x.id)).Nodup) :
    ((s :: bumpFirst rest p d).map (fun x => x.id)).Nodup := by
  have h2 : (s :: bumpFirst rest p d).map (fun x => x.id) =
      (s :: rest).map (fun x => x.id) := by
    rw [List.map_cons, List.map_cons, map_field_bumpFirst (fun x => x.id) (fun _ _ => rfl)]
  rw [h2]
  exact hn

theorem bumpFirst_cons (s : Stock) (rest : List Stock) (p : Nat) (d : Int)
    (hn : ((s :: rest).map (fun x => x.id)).Nodup) :
    bumpFirst (s :: rest) p d =
      if s.productId = p then { s with quantity := s.quantity + d } :: rest
      else s :: bumpFirst rest p d := by
  have hhead : s.id ∉ rest.map (fun x => x.id) := by
    rw [List.map_cons] at hn
    exact (List.nodup_cons.mp hn).1
  by_cases hp : s.productId = p
  · rw [if_pos hp]
    have hfind : (s :: rest).find? (fun x => x.productId = p) = some s := by
      simp [List.find?_cons, hp]
    have hrest : updateStockQuantity rest s.id (s.quantity + d) = rest := by
      refine updateStockQuantity_of_not_mem rest s.id _ (fun x hx he => hhead ?_)
      rw [← he]
      exact List.mem_map_of_mem _ hx
    unfold bumpFirst
    rw [hfind]
    show (if s.id = s.id then { s with quantity := s.quantity + d } else s) ::
        updateStockQuantity rest s.id (s.quantity + d) = _
    rw [if_pos rfl, hrest]
  · rw [if_neg hp]
    have hfind : (s :: rest).find? (fun x => x.productId = p) =
        rest.find? (fun x => x.productId = p) := by
      simp [List.find?_cons, hp]
    unfold bumpFirst
    rw [hfind]
    cases hrf : rest.find? (fun x => x.productId = p) with
    | none => rfl
    | some t =>
      have ht : t ∈ rest := List.mem_of_find?_eq_some hrf
      have hid : s.id ≠ t.id := fun he => hhead (by rw [he]; exact List.mem_map_of_mem _ ht)
      show (if s.id = t.id then { s with quantity := t.quantity + d } else s) ::
          updateStockQuantity rest t.id (t.quantity + d) =
        s :: updateStockQuantity rest t.id (t.quantity + d)
      rw [if_neg hid]

theorem nodup_ids_tail (s : Stock) (rest : List Stock)
    (hn : ((s :: rest).map (fun x => x.id)).Nodup) :
    (rest.map (fun x => x.id)).Nodup := by
  rw [List.map_cons] at hn
  exact (List.nodup_cons.mp hn).2

theorem bumpFirst_cons_pos (s : Stock) (rest : List Stock) (p : Nat) (d : Int)
    (hp : s.productId = p) (hn : ((s :: rest).map (fun x => x.id)).Nodup) :
    bumpFirst (s :: rest) p d = { s with quantity := s.quantity + d } :: rest := by
  rw [bumpFirst_cons s rest p d hn, if_pos hp]

theorem bumpFirst_cons_neg (s : Stock) (rest : List Stock) (p : Nat) (d : Int)
    (hp : ¬ s.productId = p) (hn : ((s :: rest).map (fun x => x.id)).Nodup) :
    bumpFirst (s :: rest) p d = s :: bumpFirst rest p d := by
  rw [bumpFirst_cons s rest p d hn, if_neg hp]

theorem nodup_ids_cons_setQty (s : Stock) (rest : List Stock) (q : Int)
    (hn : ((s :: rest).map (fun x => x.id)).Nodup) :
    (({ s with quantity := q } :: rest).map (fun x => x.id)).Nodup := hn

theorem bumpFirst_comm (l : List Stock) (p p' : Nat) (d d' : Int)
    (hn : (l.map (fun x => x.id)).Nodup) :
    bumpFirst (bumpFirst l p d) p' d' = bumpFirst (bumpFirst l p' d') p d := by
  induction l with
  | nil => rfl
  | cons s rest ih =>
    have hn' := nodup_ids_tail s rest hn
    by_cases hp : s.productId = p <;> by_cases hp' : s.productId = p'
    · rw [bumpFirst_cons_pos s rest p d hp hn,
          bumpFirst_cons_pos { s with quantity := s.quantity + d } rest p' d' hp'
            (nodup_ids_cons_setQty s rest _ hn),
          bumpFirst_cons_pos s rest p' d' hp' hn,
          bumpFirst_cons_pos { s with quantity := s.quantity + d' } rest p d hp
            (nodup_ids_cons_setQty s rest _ hn)]
      have hq : s.quantity + d + d' = s.quantity + d' + d := by ring
      show ({ s with quantity := s.quantity + d + d' } : Stock) :: rest =
        { s with quantity := s.quantity + d' + d } :: rest
      rw [hq]
    · rw [bumpFirst_cons_pos s rest p d hp hn,
          bumpFirst_cons_neg { s with quantity := s.quantity + d } rest p' d' hp'
            (nodup_ids_cons_setQty s rest _ hn),
          bumpFirst_cons_neg s rest p' d' hp' hn,
          bumpFirst_cons_pos s (bumpFirst rest p' d') p d hp
            (nodup_ids_cons_of_bump s rest p' d' hn)]
    · rw [bumpFirst_cons_neg s rest p d hp hn,
          bumpFirst_cons_pos s (bumpFirst rest p d) p' d' hp'
            (nodup_ids_cons_of_bump s rest p d hn),
          bumpFirst_cons_pos s rest p' d' hp' hn,
          bumpFirst_cons_neg { s with quantity := s.quantity + d' } rest p d hp
            (nodup_ids_cons_setQty s rest _ hn)]
    · rw [bumpFirst_cons_neg s rest p d hp hn,
          bumpFirst_cons_neg s (bumpFirst rest p d) p' d' hp'
            (nodup_ids_cons_of_bump s rest p d hn),
          bumpFirst_cons_neg s rest p' d' hp' hn,
          bumpFirst_cons_neg s (bumpFirst rest p' d') p d hp
            (nodup_ids_cons_of_bump s rest p' d' hn),
          ih hn']

theorem bumpFirst_bumpFirst_same (l : List Stock) (p : Nat) (d d' : Int)
    (hn : (l.map (fun x => x.id)).Nodup) :
    bumpFirst (bumpFirst l p d) p d' = bumpFirst l p (d + d') := by
  induction l with
  | nil => rfl
  | cons s rest ih =>
    have hn' := nodup_ids_tail s rest hn
    by_cases hp : s.productId = p
    · rw [bumpFirst_cons_pos s rest p d hp hn,
          bumpFirst_cons_pos { s with quantity := s.quantity + d } rest p d' hp
            (nodup_ids_cons_setQty s rest _ hn),
          bumpFirst_cons_pos s rest p (d + d') hp hn]
      show ({ s with quantity := s.quantity + d + d' } : Stock) :: rest =
        { s with quantity := s.quantity + (d + d') } :: rest
      rw [Int.add_assoc]
    · rw [bumpFirst_cons_neg s rest p d hp hn,
          bumpFirst_cons_neg s (bumpFirst rest p d) p d' hp
            (nodup_ids_cons_of_bump s rest p d hn),
          bumpFirst_cons_neg s rest p (d + d') hp hn,
          ih hn']

theorem bumpFirst_zero (l : List Stock) (p : Nat)
    (hn : (l.map (fun x => x.id)).Nodup) :
    bumpFirst l p 0 = l := by
  induction l with
  | nil => rfl
  | cons s rest ih =>
    by_cases hp : s.productId = p
    · rw [bumpFirst_cons_pos s rest p 0 hp hn]
      show ({ s with quantity := s.quantity + 0 } : Stock) :: rest = s :: rest
      simp
    · rw [bumpFirst_cons_neg s rest p 0 hp hn, ih (nodup_ids_tail s rest hn)]

theorem nodup_ids_bumpAll (ds : List (Nat × Int)) (l : List Stock)
    (hn : (l.map (fun x => x.id)).Nodup) :
    ((bumpAll l ds).map (fun x => x.id)).Nodup := by
  rw [map_field_bumpAll (fun x => x.id) (fun _ _ => rfl)]
  exact hn

theorem bumpAll_cons (l : List Stock) (pd : Nat × Int) (ds : List (Nat × Int)) :
    bumpAll l (pd :: ds) = bumpAll (bumpFirst l pd.1 pd.2) ds := rfl

theorem bumpFirst_bumpAll_comm (ds : List (Nat × Int)) (l : List Stock) (p : Nat) (d : Int)
    (hn : (l.map (fun x => x.id)).Nodup) :
    bumpFirst (bumpAll l ds) p d = bumpAll (bumpFirst l p d) ds := by
  induction ds generalizing l with
  | nil => rfl
  | cons pd rest ih =>
    rw [bumpAll_cons, bumpAll_cons,
        ih (bumpFirst l pd.1 pd.2) (ids_nodup_bumpFirst l pd.1 pd.2 hn),
        bumpFirst_comm l pd.1 p pd.2 d hn]

theorem bumpAll_inv (ds : List (Nat × Int)) (l : List Stock)
    (hn : (l.map (fun x => x.id)).Nodup) :
    bumpAll (bumpAll l (ds.map (fun pd => (pd.1, -pd.2)))) ds = l := by
  induction ds generalizing l with
  | nil => rfl
  | cons pd rest ih =>
    rw [List.map_cons, bumpAll_cons, bumpAll_cons]
    dsimp only
    rw [bumpFirst_bumpAll_comm (rest.map (fun pd => (pd.1, -pd.2)))
          (bumpFirst l pd.1 (-pd.2)) pd.1 pd.2
          (ids_nodup_bumpFirst l pd.1 (-pd.2) hn),
        bumpFirst_bumpFirst_same l pd.1 (-pd.2) pd.2 hn]
    have hz : -pd.2 + pd.2 = 0 := by ring
    rw [hz, bumpFirst_zero l pd.1 hn]
    exact ih l hn

theorem salesReduceLoop_fst (items : List OrderItem) (l : List Stock)
    (m : List StockMovement) (oid : Nat) :
    (salesReduceLoop l m oid items).1 =
      bumpAll l (items.map (fun it => (it.productId, -it.quantity))) := by
  induction items generalizing l m with
  | nil => rfl
  | cons it rest ih =>
    cases hfind : l.find? (fun s => s.productId = it.productId) with
    | none =>
      have h1 : salesReduceLoop l m oid (it :: rest) = salesReduceLoop l m oid rest := by
        simp [salesReduceLoop, hfind]
      have h2 : bumpFirst l it.productId (-it.quantity) = l := by
        simp [bumpFirst, hfind]
      rw [h1, List.map_cons, bumpAll_cons]
      dsimp only
      rw [h2, ih]
    | some stock =>
      have h1 : salesReduceLoop l m oid (it :: rest) =
          salesReduceLoop (updateStockQuantity l stock.id (stock.quantity - it.quantity))
            (m ++ [{ stockId := stock.id, movementType := .OUT, quantity := it.quantity,
                     reason := "Sales Order #" ++ toString oid }]) oid rest := by
        simp [salesReduceLoop, hfind]
      have h2 : bumpFirst l it.productId (-it.quantity) =
          updateStockQuantity l stock.id (stock.quantity - it.quantity) := by
        simp [bumpFirst, hfind, Int.sub_eq_add_neg]
      rw [h1, List.map_cons, bumpAll_cons]
      dsimp only
      rw [h2, ih]

theorem salesRestoreLoop_fst (items : List OrderItem) (l : List Stock)
    (m : List StockMovement) (oid : Nat) :
    (salesRestoreLoop l m oid items).1 =
      bumpAll l (items.map (fun it => (it.productId, it.quantity))) := by
  induction items generalizing l m with
  | nil => rfl
  | cons it rest ih =>
    cases hfind : l.find? (fun s => s.productId = it.productId) with
    | none =>
      have h1 : salesRestoreLoop l m oid (it :: rest) = salesRestoreLoop l m oid rest := by
        simp [salesRestoreLoop, hfind]
      have h2 : bumpFirst l it.productId it.quantity = l := by
        simp [bumpFirst, hfind]
      rw [h1, List.map_cons, bumpAll_cons]
      dsimp only
      rw [h2, ih]
    | some stock =>
      have h1 : salesRestoreLoop l m oid (it :: rest) =
          salesRestoreLoop (updateStockQuantity l stock.id (stock.quantity + it.quantity))
            (m ++ [{ stockId := stock.id, movementType := .IN, quantity := it.quantity,
                     reason := "Sales Order #" ++ toString oid ++ " cancelled" }]) oid rest := by
        simp [salesRestoreLoop, hfind]
      have h2 : bumpFirst l it.productId it.quantity =
          updateStockQuantity l stock.id (stock.quantity + it.quantity) := by
        simp [bumpFirst, hfind]
      rw [h1, List.map_cons, bumpAll_cons]
      dsimp only
      rw [h2, ih]

theorem receiveLoop_fst (items : List OrderItem) (l : List Stock)
    (m : List StockMovement) (oid : Nat) :
    (receiveLoop l m oid items).1 =
      bumpAll l (items.map (fun it => (it.productId, it.quantity))) := by
  induction items generalizing l m with
  | nil => rfl
  | cons it rest ih =>
    cases hfind : l.find? (fun s => s.productId = it.productId) with
    | none =>
      have h1 : receiveLoop l m oid (it :: rest) = receiveLoop l m oid rest := by
        simp [receiveLoop, hfind]
      have h2 : bumpFirst l it.productId it.quantity = l := by
        simp [bumpFirst, hfind]
      rw [h1, List.map_cons, bumpAll_cons]
      dsimp only
      rw [h2, ih]
    | some stock =>
      have h1 : receiveLoop l m oid (it :: rest) =
          receiveLoop (updateStockQuantity l stock.id (stock.quantity + it.quantity))
            (m ++ [{ stockId := stock.id, movementType := .IN, quantity := it.quantity,
                     reason := "Purchase Order #" ++ toString oid ++ " received" }]) oid rest := by
        simp [receiveLoop, hfind]
      have h2 : bumpFirst l it.productId it.quantity =
          updateStockQuantity l stock.id (stock.quantity + it.quantity) := by
        simp [bumpFirst, hfind]
      rw [h1, List.map_cons, bumpAll_cons]
      dsimp only
      rw [h2, ih]

theorem find?_map_field_bumpFirst {α : Type} (l : List Stock) (p p' : Nat) (d : Int)
    (hn : (l.map (fun x => x.id)).Nodup) (G : Stock → α)
    (hG : ∀ s q, G { s with quantity := q } = G s) :
    ((bumpFirst l p d).find? (fun s => s.productId = p')).map G =
      (l.find? (fun s => s.productId = p')).map G := by
  by_cases hpp : p' = p
  · subst hpp
    rw [find?_bumpFirst_self]
    cases l.find? (fun s => s.productId = p') with
    | none => rfl
    | some s => simp [hG]
  · rw [find?_bumpFirst_other l p p' d hn hpp]

theorem deltasSum_nil (p : Nat) : deltasSum p [] = 0 := rfl

theorem deltasSum_cons (p : Nat) (pd : Nat × Int) (ds : List (Nat × Int)) :
    deltasSum p (pd :: ds) = (if pd.1 = p then pd.2 else 0) + deltasSum p ds := by
  by_cases h : pd.1 = p <;> simp [deltasSum, List.filter_cons, h]

theorem find?_bumpAll (ds : List (Nat × Int)) (l : List Stock) (p : Nat)
    (hn : (l.map (fun x => x.id)).Nodup) :
    (bumpAll l ds).find? (fun s => s.productId = p) =
      (l.find? (fun s => s.productId = p)).map
        (fun s => { s with quantity := s.quantity + deltasSum p ds }) := by
  induction ds generalizing l with
  | nil =>
    show l.find? (fun s => s.productId = p) = _
    cases l.find? (fun s => s.productId = p) with
    | none => rfl
    | some s => simp [deltasSum_nil]
  | cons pd rest ih =>
    rw [bumpAll_cons, ih (bumpFirst l pd.1 pd.2) (ids_nodup_bumpFirst l pd.1 pd.2 hn),
        deltasSum_cons]
    by_cases hpp : p = pd.1
    · rw [← hpp, find?_bumpFirst_self]
      cases l.find? (fun s => s.productId = p) with
      | none => rfl
      | some s =>
        have hq : s.quantity + pd.2 + deltasSum p rest =
            s.quantity + ((if p = p then pd.2 else 0) + deltasSum p rest) := by
          rw [if_pos rfl]
          ring
        show some ({ s with quantity := s.quantity + pd.2 + deltasSum p rest } : Stock) = _
        rw [hq]
        rfl
    · rw [find?_bumpFirst_other l pd.1 p pd.2 hn hpp]
      have hz : (if pd.1 = p then pd.2 else 0) = 0 := if_neg (fun h => hpp h.symm)
      rw [hz, Int.zero_add]

theorem receiveLoop_snd (items : List OrderItem) (l : List Stock)
    (m : List StockMovement) (oid : Nat)
    (hn : (l.map (fun x => x.id)).Nodup) :
    (receiveLoop l m oid items).2 = m ++ items.filterMap (fun it =>
      (l.find? (fun s => s.productId = it.productId)).map (fun s =>
        ({ stockId := s.id, movementType := .IN, quantity := it.quantity,
           reason := "Purchase Order #" ++ toString oid ++ " received" } : StockMovement))) := by
  induction items generalizing l m with
  | nil => simp [receiveLoop]
  | cons it rest ih =>
    cases hfind : l.find? (fun s => s.productId = it.productId) with
    | none =>
      have h1 : receiveLoop l m oid (it :: rest) = receiveLoop l m oid rest := by
        simp [receiveLoop, hfind]
      rw [h1, ih l m hn, List.filterMap_cons, hfind]
      rfl
    | some stock =>
      have h1 : receiveLoop l m oid (it :: rest) =
          receiveLoop (updateStockQuantity l stock.id (stock.quantity + it.quantity))
            (m ++ [{ stockId := stock.id, movementType := .IN, quantity := it.quantity,
                     reason := "Purchase Order #" ++ toString oid ++ " received" }]) oid rest := by
        simp [receiveLoop, hfind]
      have h2 : updateStockQuantity l stock.id (stock.quantity + it.quantity) =
          bumpFirst l it.productId it.quantity := by
        simp [bumpFirst, hfind]
      have hn2 : ((updateStockQuantity l stock.id
          (stock.quantity + it.quantity)).map (fun x => x.id)).Nodup := by
        rw [map_field_updateStockQuantity (fun x => x.id) (fun _ _ => rfl)]
        exact hn
      rw [h1, ih _ _ hn2]
      have h3 : rest.filterMap (fun it' =>
            ((updateStockQuantity l stock.id (stock.quantity + it.quantity)).find?
              (fun s => s.productId = it'.productId)).map (fun s =>
              ({ stockId := s.id, movementType := .IN, quantity := it'.quantity,
                 reason := "Purchase Order #" ++ toString oid ++ " received" } : StockMovement))) =
          rest.filterMap (fun it' =>
            (l.find? (fun s => s.productId = it'.productId)).map (fun s =>
              ({ stockId := s.id, movementType := .IN, quantity := it'.quantity,
                 reason := "Purchase Order #" ++ toString oid ++ " received" } : StockMovement))) := by
        refine List.filterMap_congr (fun it' _ => ?_)
        rw [h2]
        exact find?_map_field_bumpFirst l it.productId it'.productId it.quantity hn
          (fun s => ({ stockId := s.id, movementType := .IN, quantity := it'.quantity,
                       reason := "Purchase Order #" ++ toString oid ++ " received" } :
                      StockMovement))
          (fun _ _ => rfl)
      rw [h3, List.filterMap_cons, hfind]
      simp

theorem filter_product_cons_pos (s : Stock) (rest : List Stock) (p : Nat)
    (hsp : s.productId = p) :
    (s :: rest).filter (fun x => x.productId = p) =
      s :: rest.filter (fun x => x.productId = p) := by
  simp [List.filter_cons, hsp]

theorem filter_product_cons_neg (s : Stock) (rest : List Stock) (p : Nat)
    (hsp : ¬ s.productId = p) :
    (s :: rest).filter (fun x => x.productId = p) =
      rest.filter (fun x => x.productId = p) := by
  simp [List.filter_cons, hsp]

theorem sum_quantity_filter_update (l : List Stock) (i : Nat) (v : Int) (p : Nat)
    (hn : (l.map (fun x => x.id)).Nodup) (s0 : Stock)
    (hfind : l.find? (fun s => s.id = i) = some s0) :
    (((updateStockQuantity l i v).filter (fun s => s.productId = p)).map
        (fun s => s.quantity)).sum =
      ((l.filter (fun s => s.productId = p)).map (fun s => s.quantity)).sum +
        (if s0.productId = p then v - s0.quantity else 0) := by
  induction l with
  | nil => simp at hfind
  | cons s rest ih =>
    have hn' := nodup_ids_tail s rest hn
    have hhead : s.id ∉ rest.map (fun x => x.id) := by
      rw [List.map_cons] at hn
      exact (List.nodup_cons.mp hn).1
    by_cases hid : s.id = i
    · have hs0 : s = s0 := by
        rw [List.find?_cons_of_pos rest (by simpa using hid)] at hfind
        exact Option.some.inj hfind
      subst hs0
      have hrest : updateStockQuantity rest i v = rest := by
        refine updateStockQuantity_of_not_mem rest i v (fun x hx he => hhead ?_)
        rw [hid, ← he]
        exact List.mem_map_of_mem (fun x => x.id) hx
      have hupd : updateStockQuantity (s :: rest) i v = { s with quantity := v } :: rest := by
        show (if s.id = i then { s with quantity := v } else s) ::
            updateStockQuantity rest i v = _
        rw [if_pos hid, hrest]
      rw [hupd]
      by_cases hsp : s.productId = p
      · rw [filter_product_cons_pos { s with quantity := v } rest p hsp,
            filter_product_cons_pos s rest p hsp, if_pos hsp]
        simp only [List.map_cons, List.sum_cons]
        show v + _ = s.quantity + _ + (v - s.quantity)
        ring
      · rw [filter_product_cons_neg { s with quantity := v } rest p hsp,
            filter_product_cons_neg s rest p hsp, if_neg hsp]
        simp
    · have hfind' : rest.find? (fun s => s.id = i) = some s0 := by
        rw [List.find?_cons_of_neg rest (by simpa using hid)] at hfind
        exact hfind
      have hupd : updateStockQuantity (s :: rest) i v = s :: updateStockQuantity rest i v := by
        show (if s.id = i then { s with quantity := v } else s) ::
            updateStockQuantity rest i v = _
        rw [if_neg hid]
      rw [hupd]
      by_cases hsp : s.productId = p
      · rw [filter_product_cons_pos s (updateStockQuantity rest i v) p hsp,
            filter_product_cons_pos s rest p hsp]
        simp only [List.map_cons, List.sum_cons]
        rw [ih hn' hfind']
        ring
      · rw [filter_product_cons_neg s (updateStockQuantity rest i v) p hsp,
            filter_product_cons_neg s rest p hsp]
        exact ih hn' hfind'

theorem sum_quantity_filter_append (l l2 : List Stock) (p : Nat) :
    (((l ++ l2).filter (fun s => s.productId = p)).map (fun s => s.quantity)).sum =
      ((l.filter (fun s => s.productId = p)).map (fun s => s.quantity)).sum +
        ((l2.filter (fun s => s.productId = p)).map (fun s => s.quantity)).sum := by
  simp [List.filter_append]

theorem find?_id_of_mem (l : List Stock) (hn : (l.map (fun x => x.id)).Nodup)
    (x : Stock) (hx : x ∈ l) : l.find? (fun s => s.id = x.id) = some x := by
  induction l with
  | nil => simp at hx
  | cons h rest ih =>
    have hhead : h.id ∉ rest.map (fun s => s.id) := by
      rw [List.map_cons] at hn
      exact (List.nodup_cons.mp hn).1
    by_cases hid : h.id = x.id
    · have hxh : x = h := by
        rcases List.mem_cons.mp hx with h1 | h1
        · exact h1
        · exact absurd (by rw [hid]; exact List.mem_map_of_mem (fun s => s.id) h1) hhead
      subst hxh
      exact List.find?_cons_of_pos rest (by simp)
    · have hx' : x ∈ rest := by
        rcases List.mem_cons.mp hx with h1 | h1
        · exact absurd (by rw [h1]) hid
        · exact h1
      rw [List.find?_cons_of_neg rest (by simpa using hid)]
      exact ih (nodup_ids_tail h rest hn) hx'

theorem find?_id_append_left (l l2 : List Stock) (i : Nat) (s : Stock)
    (h : l.find? (fun x => x.id = i) = some s) :
    (l ++ l2).find? (fun x => x.id = i) = some s := by
  rw [List.find?_append, h]
  rfl

theorem find?_id_append_fresh (l : List Stock) (new : Stock)
    (hfresh : ∀ x ∈ l, x.id ≠ new.id) :
    (l ++ [new]).find? (fun x => x.id = new.id) = some new := by
  rw [List.find?_append]
  have h1 : l.find? (fun x => x.id = new.id) = none := by
    rw [List.find?_eq_none]
    intro x hx
    simpa using hfresh x hx
  rw [h1]
  simp

theorem find?_key_append (l l2 : List Stock) (K : Stock → Bool) :
    (l ++ l2).find? K = (l.find? K).or (l2.find? K) :=
  List.find?_append ..

theorem deltasSum_map_items (p : Nat) (items : List OrderItem) :
    deltasSum p (items.map (fun it => (it.productId, it.quantity))) = itemsSum p items := by
  induction items with
  | nil => rfl
  | cons it rest ih =>
    rw [List.map_cons, deltasSum_cons]
    by_cases h : it.productId = p
    · simp only [if_pos h]
      have h2 : itemsSum p (it :: rest) = it.quantity + itemsSum p rest := by
        simp [itemsSum, List.filter_cons, h]
      rw [h2, ih]
    · simp only [if_neg h]
      have h2 : itemsSum p (it :: rest) = itemsSum p rest := by
        simp [itemsSum, List.filter_cons, h]
      rw [h2, ih, Int.zero_add]

theorem find?_purchase_update_status (l : List PurchaseOrder) (i : Nat) (st : String) :
    (l.map (fun o => if o.id = i then { o with status := st } else o)).find?
        (fun o => o.id = i) =
      (l.find? (fun o => o.id = i)).map
        (fun o => if o.id = i then { o with status := st } else o) := by
  have hKg : ((fun o : PurchaseOrder => decide (o.id = i)) ∘
      fun o => if o.id = i then { o with status := st } else o) =
      (fun o : PurchaseOrder => decide (o.id = i)) := by
    funext o
    show decide ((if o.id = i then { o with status := st } else o).id = i) =
      decide (o.id = i)
    by_cases h : o.id = i
    · rw [if_pos h]
    · rw [if_neg h]
  rw [List.find?_map, hKg]

theorem find?_sales_update_status (l : List SalesOrder) (i : Nat) (st : String) :
    (l.map (fun o => if o.id = i then { o with status := st } else o)).find?
        (fun o => o.id = i) =
      (l.find? (fun o => o.id = i)).map
        (fun o => if o.id = i then { o with status := st } else o) := by
  have hKg : ((fun o : SalesOrder => decide (o.id = i)) ∘
      fun o => if o.id = i then { o with status := st } else o) =
      (fun o : SalesOrder => decide (o.id = i)) := by
    funext o
    show decide ((if o.id = i then { o with status := st } else o).id = i) =
      decide (o.id = i)
    by_cases h : o.id = i
    · rw [if_pos h]
    · rw [if_neg h]
  rw [List.find?_map, hKg]

theorem applyOp_shape (db db2 : DB) (op : Op) (hok : applyOp db op = .ok db2) :
    db2.locations = db.locations ∧
    (db2.stocks.map stripQ = db.stocks.map stripQ ∨
     ∃ new : Stock,
       db2.stocks.map stripQ = db.stocks.map stripQ ++ [stripQ new] ∧
       db.stocks.find? (fun s => s.productId = new.productId ∧
         s.locationId = new.locationId) = none ∧
       (db.locations.find? (fun l => l.id = new.locationId)).map
         (fun l => l.warehouseId) = some new.warehouseId) := by
  cases op with
  | recordMovement stockId movementType quantity reason =>
    unfold applyOp recordMovement at hok
    cases hfind : db.stocks.find? (fun s => s.id = stockId) with
    | none =>
      simp only [hfind] at hok
      exact Except.noConfusion hok
    | some stock =>
      simp only [hfind] at hok
      by_cases hc : movementType = MovementType.OUT ∧ stock.quantity < quantity
      · rw [if_pos hc] at hok
        exact Except.noConfusion hok
      · rw [if_neg hc] at hok
        have hdb2 := (Except.ok.inj hok).symm
        subst hdb2
        refine ⟨rfl, Or.inl ?_⟩
        exact map_field_updateStockQuantity stripQ (fun _ _ => rfl) db.stocks stockId _
  | adjustStock stockId adjustmentType quantity reason approvedById =>
    unfold applyOp adjustStock at hok
    cases hfind : db.stocks.find? (fun s => s.id = stockId) with
    | none =>
      simp only [hfind] at hok
      exact Except.noConfusion hok
    | some stock =>
      simp only [hfind] at hok
      by_cases hc : adjustmentType = AdjustmentType.REMOVE ∧ stock.quantity < quantity
      · rw [if_pos hc] at hok
        exact Except.noConfusion hok
      · rw [if_neg hc] at hok
        have hdb2 := (Except.ok.inj hok).symm
        subst hdb2
        refine ⟨rfl, Or.inl ?_⟩
        exact map_field_updateStockQuantity stripQ (fun _ _ => rfl) db.stocks stockId _
  | transferStock sourceStockId targetLocationId quantity reason =>
    unfold applyOp transferStock at hok
    cases hfind : db.stocks.find? (fun s => s.id = sourceStockId) with
    | none =>
      simp only [hfind] at hok
      exact Except.noConfusion hok
    | some sourceStock =>
      simp only [hfind] at hok
      by_cases hc : sourceStock.quantity < quantity
      · rw [if_pos hc] at hok
        exact Except.noConfusion hok
      · rw [if_neg hc] at hok
        cases hloc : db.locations.find? (fun l => l.id = targetLocationId) with
        | none =>
          simp only [hloc] at hok
          exact Except.noConfusion hok
        | some targetLocation =>
          simp only [hloc] at hok
          cases hfound : db.stocks.find? (fun s => s.productId = sourceStock.productId ∧
              s.locationId = targetLocationId) with
          | some t =>
            simp only [hfound] at hok
            have hdb2 := (Except.ok.inj hok).symm
            subst hdb2
            refine ⟨rfl, Or.inl ?_⟩
            rw [map_field_updateStockQuantity stripQ (fun _ _ => rfl),
                map_field_updateStockQuantity stripQ (fun _ _ => rfl)]
          | none =>
            simp only [hfound] at hok
            have hdb2 := (Except.ok.inj hok).symm
            subst hdb2
            refine ⟨rfl, Or.inr ⟨{ id := db.nextStockId,
                                   productId := sourceStock.productId,
                                   warehouseId := targetLocation.warehouseId,
                                   locationId := targetLocationId,
                                   quantity := 0 }, ?_, ?_, ?_⟩⟩
            · rw [map_field_updateStockQuantity stripQ (fun _ _ => rfl),
                  map_field_updateStockQuantity stripQ (fun _ _ => rfl),
                  List.map_append]
              rfl
            · exact hfound
            · rw [hloc]
              rfl
  | createSalesOrder customerId items =>
    unfold applyOp at hok
    cases hres : createSalesOrder db customerId items with
    | error e =>
      simp only [hres, Except.map] at hok
      exact Except.noConfusion hok
    | ok r =>
      simp only [hres, Except.map] at hok
      have hdb2 : r.2 = db2 := Except.ok.inj hok
      unfold createSalesOrder at hres
      by_cases hempty : items.isEmpty
      · simp [hempty] at hres
      · by_cases hfail : (items.filterMap (stockCheckFailure db)).isEmpty
        · simp only [hempty, Bool.false_eq_true, if_false, hfail, if_true] at hres
          have hr2 := congrArg Prod.snd (Except.ok.inj hres)
          rw [← hdb2, ← hr2]
          refine ⟨rfl, Or.inl ?_⟩
          show ((salesReduceLoop db.stocks db.movements
              db.nextSalesOrderId items).1).map stripQ = db.stocks.map stripQ
          rw [salesReduceLoop_fst, map_field_bumpAll stripQ (fun _ _ => rfl)]
        · simp only [hempty, Bool.false_eq_true, if_false, hfail, Bool.true_eq_false,
            if_false] at hres
          exact Except.noConfusion hres
  | cancelSalesOrder id =>
    unfold applyOp at hok
    cases hres : cancelSalesOrder db id with
    | error e =>
      simp only [hres, Except.map] at hok
      exact Except.noConfusion hok
    | ok r =>
      simp only [hres, Except.map] at hok
      have hdb2 : r.2 = db2 := Except.ok.inj hok
      unfold cancelSalesOrder at hres
      cases hord : db.salesOrders.find? (fun o => o.id = id) with
      | none =>
        simp only [hord] at hres
        exact Except.noConfusion hres
      | some order =>
        simp only [hord] at hres
        by_cases hc1 : order.status = "cancelled"
        · rw [if_pos hc1] at hres
          exact Except.noConfusion hres
        · rw [if_neg hc1] at hres
          by_cases hc2 : order.status = "completed"
          · rw [if_pos hc2] at hres
            exact Except.noConfusion hres
          · rw [if_neg hc2] at hres
            have hr2 := congrArg Prod.snd (Except.ok.inj hres)
            rw [← hdb2, ← hr2]
            refine ⟨rfl, Or.inl ?_⟩
            show ((salesRestoreLoop db.stocks db.movements
                order.id order.items).1).map stripQ = db.stocks.map stripQ
            rw [salesRestoreLoop_fst, map_field_bumpAll stripQ (fun _ _ => rfl)]
  | receivePurchaseOrder id =>
    unfold applyOp at hok
    cases hres : receivePurchaseOrder db id with
    | error e =>
      simp only [hres, Except.map] at hok
      exact Except.noConfusion hok
    | ok r =>
      simp only [hres, Except.map] at hok
      have hdb2 : r.2 = db2 := Except.ok.inj hok
      unfold receivePurchaseOrder at hres
      cases hord : db.purchaseOrders.find? (fun o => o.id = id) with
      | none =>
        simp only [hord] at hres
        exact Except.noConfusion hres
      | some order =>
        simp only [hord] at hres
        by_cases hc1 : order.status = "received"
        · rw [if_pos hc1] at hres
          exact Except.noConfusion hres
        · rw [if_neg hc1] at hres
          have hr2 := congrArg Prod.snd (Except.ok.inj hres)
          rw [← hdb2, ← hr2]
          refine ⟨rfl, Or.inl ?_⟩
          show ((receiveLoop db.stocks db.movements
              order.id order.items).1).map stripQ = db.stocks.map stripQ
          rw [receiveLoop_fst, map_field_bumpAll stripQ (fun _ _ => rfl)]
  | createStock productId warehouseId locationId quantity =>
    unfold applyOp createStock at hok
    cases hloc : db.locations.find? (fun l => l.id = locationId) with
    | none =>
      simp only [hloc] at hok
      exact Except.noConfusion hok
    | some location =>
      simp only [hloc] at hok
      by_cases hw : location.warehouseId ≠ warehouseId
      · rw [if_pos hw] at hok
        exact Except.noConfusion hok
      · rw [if_neg hw] at hok
        cases hfound : db.stocks.find? (fun s => s.productId = productId ∧
            s.locationId = locationId) with
        | some t =>
          simp only [hfound] at hok
          exact Except.noConfusion hok
        | none =>
          simp only [hfound, Except.map] at hok
          have hdb2 := (Except.ok.inj hok).symm
          subst hdb2
          refine ⟨rfl, Or.inr ⟨{ id := db.nextStockId, productId := productId,
                                 warehouseId := warehouseId,
                                 locationId := locationId,
                                 quantity := quantity }, ?_, ?_, ?_⟩⟩
          · rw [List.map_append]
            rfl
          · exact hfound
          · rw [hloc]
            have hwe : location.warehouseId = warehouseId := not_ne_iff.mp hw
            rw [← hwe]
            rfl

theorem stockCheckFailure_eq_none (db : DB) (it : OrderItem) :
    stockCheckFailure db it = none ↔
    ∃ s, db.stocks.find? (fun x => x.productId = it.productId) = some s ∧
      ¬ s.quantity < it.quantity := by
  unfold stockCheckFailure
  cases hf : db.stocks.find? (fun x => x.productId = it.productId) with
  | none => simp
  | some s =>
    by_cases hq : s.quantity < it.quantity
    · simp [hq]
    · simp [hq]
      omega

theorem bumpAll_nonneg_of_nonneg (ds : List (Nat × Int)) (l : List Stock)
    (hd : ∀ pd ∈ ds, 0 ≤ pd.2) (h0 : ∀ s ∈ l, 0 ≤ s.quantity) :
    ∀ s' ∈ bumpAll l ds, 0 ≤ s'.quantity := by
  induction ds generalizing l with
  | nil => exact h0
  | cons pd rest ih =>
    show ∀ s' ∈ bumpAll (bumpFirst l pd.1 pd.2) rest, 0 ≤ s'.quantity
    exact ih (bumpFirst l pd.1 pd.2) (fun x hx => hd x (List.mem_cons_of_mem _ hx))
      (bumpFirst_nonneg_of_nonneg l pd.1 pd.2 h0 (hd pd (List.mem_cons_self _ _)))

theorem bumpAll_neg_items_nonneg (items : List OrderItem) (l : List Stock)
    (hn : (l.map (fun x => x.id)).Nodup)
    (hnd : (items.map (fun it => it.productId)).Nodup)
    (hcheck : ∀ it ∈ items,
      ∃ s, l.find? (fun x => x.productId = it.productId) = some s ∧
        ¬ s.quantity < it.quantity)
    (h0 : ∀ s ∈ l, 0 ≤ s.quantity) :
    ∀ s' ∈ bumpAll l (items.map (fun it => (it.productId, -it.quantity))),
      0 ≤ s'.quantity := by
  induction items generalizing l with
  | nil => exact h0
  | cons it rest ih =>
    rw [List.map_cons, bumpAll_cons]
    obtain ⟨s0, hf0, hq0⟩ := hcheck it (List.mem_cons_self _ _)
    have h1 : ∀ s' ∈ bumpFirst l it.productId (-it.quantity), 0 ≤ s'.quantity := by
      refine bumpFirst_nonneg l it.productId (-it.quantity) h0 (fun s1 hf1 => ?_)
      rw [hf0] at hf1
      have hss : s1 = s0 := (Option.some.inj hf1).symm
      subst hss
      omega
    have hn1 := ids_nodup_bumpFirst l it.productId (-it.quantity) hn
    have hndrest : (rest.map (fun x => x.productId)).Nodup := by
      rw [List.map_cons] at hnd
      exact (List.nodup_cons.mp hnd).2
    have hhead : it.productId ∉ rest.map (fun x => x.productId) := by
      rw [List.map_cons] at hnd
      exact (List.nodup_cons.mp hnd).1
    refine ih (bumpFirst l it.productId (-it.quantity)) hn1 hndrest ?_ h1
    intro it' hit'
    obtain ⟨s, hf, hq⟩ := hcheck it' (List.mem_cons_of_mem _ hit')
    have hne : it'.productId ≠ it.productId := by
      intro he
      exact hhead (by rw [← he]; exact List.mem_map_of_mem _ hit')
    rw [find?_bumpFirst_other l it.productId it'.productId _ hn hne]
    exact ⟨s, hf, hq⟩

theorem bound_of_map_id_eq (l l0 : List Stock) (n : Nat)
    (he : l.map (fun x => x.id) = l0.map (fun x => x.id))
    (hb : ∀ s ∈ l0, s.id < n) : ∀ s ∈ l, s.id < n := by
  intro s hs
  have hm : s.id ∈ l0.map (fun x => x.id) := he ▸ List.mem_map_of_mem (fun x => x.id) hs
  rcases List.mem_map.mp hm with ⟨x, hx, hxe⟩
  rw [← hxe]
  exact hb x hx

theorem applyOp_goodstate (db db2 : DB) (op : Op) (hg : GoodState db)
    (hop : StockMutOpOK op) (hok : applyOp db op = .ok db2) : GoodState db2 := by
  obtain ⟨hnn, ⟨hnid, hbound⟩, hsids, hsq, hpq⟩ := hg
  cases op with
  | recordMovement stockId movementType quantity reason =>
    unfold applyOp recordMovement at hok
    cases hfind : db.stocks.find? (fun s => s.id = stockId) with
    | none =>
      simp only [hfind] at hok
      exact Except.noConfusion hok
    | some stock =>
      simp only [hfind] at hok
      by_cases hc : movementType = MovementType.OUT ∧ stock.quantity < quantity
      · rw [if_pos hc] at hok
        exact Except.noConfusion hok
      · rw [if_neg hc] at hok
        have hdb2 := (Except.ok.inj hok).symm
        subst hdb2
        have hq1 : (1 : Int) ≤ quantity := hop
        have hsmem : stock ∈ db.stocks := List.mem_of_find?_eq_some hfind
        have h0 := hnn stock hsmem
        have hnewq : 0 ≤ (if movementType = MovementType.IN then
            stock.quantity + quantity else stock.quantity - quantity) := by
          cases movementType with
          | IN =>
            rw [if_pos rfl]
            omega
          | OUT =>
            have hnlt : ¬ stock.quantity < quantity := fun hlt => hc ⟨rfl, hlt⟩
            rw [if_neg (by decide)]
            omega
        refine ⟨?_, ⟨?_, ?_⟩, hsids, hsq, hpq⟩
        · intro s' hs'
          rcases mem_updateStockQuantity _ _ _ _ hs' with h | ⟨s, hs, _, rfl⟩
          · exact hnn s' h
          · exact hnewq
        · rw [map_field_updateStockQuantity (fun x => x.id) (fun _ _ => rfl)]
          exact hnid
        · refine bound_of_map_id_eq _ db.stocks _ ?_ hbound
          exact map_field_updateStockQuantity (fun x => x.id) (fun _ _ => rfl) _ _ _
  | adjustStock stockId adjustmentType quantity reason approvedById =>
    unfold applyOp adjustStock at hok
    cases hfind : db.stocks.find? (fun s => s.id = stockId) with
    | none =>
      simp only [hfind] at hok
      exact Except.noConfusion hok
    | some stock =>
      simp only [hfind] at hok
      by_cases hc : adjustmentType = AdjustmentType.REMOVE ∧ stock.quantity < quantity
      · rw [if_pos hc] at hok
        exact Except.noConfusion hok
      · rw [if_neg hc] at hok
        have hdb2 := (Except.ok.inj hok).symm
        subst hdb2
        have hq1 : (1 : Int) ≤ quantity := hop
        have hsmem : stock ∈ db.stocks := List.mem_of_find?_eq_some hfind
        have h0 := hnn stock hsmem
        have hnewq : 0 ≤ (if adjustmentType = AdjustmentType.ADD then
            stock.quantity + quantity else stock.quantity - quantity) := by
          cases adjustmentType with
          | ADD =>
            rw [if_pos rfl]
            omega
          | REMOVE =>
            have hnlt : ¬ stock.quantity < quantity := fun hlt => hc ⟨rfl, hlt⟩
            rw [if_neg (by decide)]
            omega
        refine ⟨?_, ⟨?_, ?_⟩, hsids, hsq, hpq⟩
        · intro s' hs'
          rcases mem_updateStockQuantity _ _ _ _ hs' with h | ⟨s, hs, _, rfl⟩
          · exact hnn s' h
          · exact hnewq
        · rw [map_field_updateStockQuantity (fun x => x.id) (fun _ _ => rfl)]
          exact hnid
        · refine bound_of_map_id_eq _ db.stocks _ ?_ hbound
          exact map_field_updateStockQuantity (fun x => x.id) (fun _ _ => rfl) _ _ _
  | transferStock sourceStockId targetLocationId quantity reason =>
    unfold applyOp transferStock at hok
    cases hfind : db.stocks.find? (fun s => s.id = sourceStockId) with
    | none =>
      simp only [hfind] at hok
      exact Except.noConfusion hok
    | some sourceStock =>
      simp only [hfind] at hok
      by_cases hc : sourceStock.quantity < quantity
      · rw [if_pos hc] at hok
        exact Except.noConfusion hok
      · rw [if_neg hc] at hok
        cases hloc : db.locations.find? (fun l => l.id = targetLocationId) with
        | none =>
          simp only [hloc] at hok
          exact Except.noConfusion hok
        | some targetLocation =>
          simp only [hloc] at hok
          have hq1 : (1 : Int) ≤ quantity := hop
          cases hfound : db.stocks.find? (fun s => s.productId = sourceStock.productId ∧
              s.locationId = targetLocationId) with
          | some t =>
            simp only [hfound] at hok
            have hdb2 := (Except.ok.inj hok).symm
            subst hdb2
            have htmem : t ∈ db.stocks := List.mem_of_find?_eq_some hfound
            have ht0 := hnn t htmem
            refine ⟨?_, ⟨?_, ?_⟩, hsids, hsq, hpq⟩
            · intro s' hs'
              rcases mem_updateStockQuantity _ _ _ _ hs' with h | ⟨s, hs, _, rfl⟩
              · rcases mem_updateStockQuantity _ _ _ _ h with h2 | ⟨s2, hs2, _, rfl⟩
                · exact hnn s' h2
                · show 0 ≤ sourceStock.quantity - quantity
                  omega
              · show 0 ≤ t.quantity + quantity
                omega
            · rw [map_field_updateStockQuantity (fun x => x.id) (fun _ _ => rfl),
                  map_field_updateStockQuantity (fun x => x.id) (fun _ _ => rfl)]
              exact hnid
            · refine bound_of_map_id_eq _ db.stocks _ ?_ hbound
              rw [map_field_updateStockQuantity (fun x => x.id) (fun _ _ => rfl),
                  map_field_updateStockQuantity (fun x => x.id) (fun _ _ => rfl)]
          | none =>
            simp only [hfound] at hok
            have hdb2 := (Except.ok.inj hok).symm
            subst hdb2
            have hl1nn : ∀ s ∈ db.stocks ++
                [({ id := db.nextStockId, productId := sourceStock.productId,
                    warehouseId := targetLocation.warehouseId,
                    locationId := targetLocationId, quantity := 0 } : Stock)],
                0 ≤ s.quantity := by
              intro s hs
              rcases List.mem_append.mp hs with h | h
              · exact hnn s h
              · rw [List.mem_singleton.mp h]
            refine ⟨?_, ⟨?_, ?_⟩, hsids, hsq, hpq⟩
            · intro s' hs'
              rcases mem_updateStockQuantity _ _ _ _ hs' with h | ⟨s, hs, _, rfl⟩
              · rcases mem_updateStockQuantity _ _ _ _ h with h2 | ⟨s2, hs2, _, rfl⟩
                · exact hl1nn s' h2
                · show 0 ≤ sourceStock.quantity - quantity
                  omega
              · show 0 ≤ 0 + quantity
                omega
            · rw [map_field_updateStockQuantity (fun x => x.id) (fun _ _ => rfl),
                  map_field_updateStockQuantity (fun x => x.id) (fun _ _ => rfl),
                  List.map_append, List.nodup_append]
              refine ⟨hnid, by simp, ?_⟩
              intro a ha
              rcases List.mem_map.mp ha with ⟨x, hx, rfl⟩
              simp only [List.map_cons, List.map_nil, List.mem_singleton]
              exact Nat.ne_of_lt (hbound x hx)
            · refine bound_of_map_id_eq _ (db.stocks ++
                [({ id := db.nextStockId, productId := sourceStock.productId,
                    warehouseId := targetLocation.warehouseId,
                    locationId := targetLocationId, quantity := 0 } : Stock)]) _ ?_ ?_
              · rw [map_field_updateStockQuantity (fun x => x.id) (fun _ _ => rfl),
                    map_field_updateStockQuantity (fun x => x.id) (fun _ _ => rfl)]
              · intro s hs
                rcases List.mem_append.mp hs with h | h
                · exact Nat.lt_succ_of_lt (hbound s h)
                · rw [List.mem_singleton.mp h]
                  exact Nat.lt_succ_self _
  | createSalesOrder customerId items =>
    unfold applyOp at hok
    cases hres : createSalesOrder db customerId items with
    | error e =>
      simp only [hres, Except.map] at hok
      exact Except.noConfusion hok
    | ok r =>
      simp only [hres, Except.map] at hok
      have hdb2 : r.2 = db2 := Except.ok.inj hok
      unfold createSalesOrder at hres
      by_cases hempty : items.isEmpty
      · simp [hempty] at hres
      · by_cases hfail : (items.filterMap (stockCheckFailure db)).isEmpty
        · simp only [hempty, Bool.false_eq_true, if_false, hfail, if_true] at hres
          have hr2 := congrArg Prod.snd (Except.ok.inj hres)
          rw [← hdb2, ← hr2]
          have hcheck : ∀ it ∈ items,
              ∃ s, db.stocks.find? (fun x => x.productId = it.productId) = some s ∧
                ¬ s.quantity < it.quantity := by
            intro it hit
            have hnil : items.filterMap (stockCheckFailure db) = [] := by
              simpa [List.isEmpty_iff] using hfail
            exact (stockCheckFailure_eq_none db it).mp
              (List.filterMap_eq_nil_iff.mp hnil it hit)
          refine ⟨?_, ⟨?_, ?_⟩, ?_, ?_, hpq⟩
          · intro s' hs'
            refine bumpAll_neg_items_nonneg items db.stocks hnid hop.2 hcheck hnn s' ?_
            rw [← salesReduceLoop_fst items db.stocks db.movements db.nextSalesOrderId]
            exact hs'
          · show (((salesReduceLoop db.stocks db.movements
                db.nextSalesOrderId items).1).map (fun x => x.id)).Nodup
            rw [salesReduceLoop_fst, map_field_bumpAll (fun x => x.id) (fun _ _ => rfl)]
            exact hnid
          · refine bound_of_map_id_eq _ db.stocks _ ?_ hbound
            show (((salesReduceLoop db.stocks db.movements
                db.nextSalesOrderId items).1).map (fun x => x.id)) = _
            rw [salesReduceLoop_fst, map_field_bumpAll (fun x => x.id) (fun _ _ => rfl)]
          · intro o ho
            rcases List.mem_append.mp ho with h | h
            · exact Nat.lt_succ_of_lt (hsids o h)
            · rw [List.mem_singleton.mp h]
              exact Nat.lt_succ_self _
          · intro o ho
            rcases List.mem_append.mp ho with h | h
            · exact hsq o h
            · rw [List.mem_singleton.mp h]
              exact hop.1
        · simp only [hempty, Bool.false_eq_true, if_false, hfail, Bool.true_eq_false,
            if_false] at hres
          exact Except.noConfusion hres
  | cancelSalesOrder id =>
    unfold applyOp at hok
    cases hres : cancelSalesOrder db id with
    | error e =>
      simp only [hres, Except.map] at hok
      exact Except.noConfusion hok
    | ok r =>
      simp only [hres, Except.map] at hok
      have hdb2 : r.2 = db2 := Except.ok.inj hok
      unfold cancelSalesOrder at hres
      cases hord : db.salesOrders.find? (fun o => o.id = id) with
      | none =>
        simp only [hord] at hres
        exact Except.noConfusion hres
      | some order =>
        simp only [hord] at hres
        by_cases hc1 : order.status = "cancelled"
        · rw [if_pos hc1] at hres
          exact Except.noConfusion hres
        · rw [if_neg hc1] at hres
          by_cases hc2 : order.status = "completed"
          · rw [if_pos hc2] at hres
            exact Except.noConfusion hres
          · rw [if_neg hc2] at hres
            have hr2 := congrArg Prod.snd (Except.ok.inj hres)
            rw [← hdb2, ← hr2]
            have homem : order ∈ db.salesOrders := List.mem_of_find?_eq_some hord
            refine ⟨?_, ⟨?_, ?_⟩, ?_, ?_, hpq⟩
            · intro s' hs'
              refine bumpAll_nonneg_of_nonneg
                (order.items.map (fun it => (it.productId, it.quantity)))
                db.stocks ?_ hnn s' ?_
              · intro pd hpd
                rcases List.mem_map.mp hpd with ⟨it, hit, rfl⟩
                have := hsq order homem it hit
                omega
              · rw [← salesRestoreLoop_fst order.items db.stocks db.movements order.id]
                exact hs'
            · show (((salesRestoreLoop db.stocks db.movements
                  order.id order.items).1).map (fun x => x.id)).Nodup
              rw [salesRestoreLoop_fst,
                  map_field_bumpAll (fun x => x.id) (fun _ _ => rfl)]
              exact hnid
            · refine bound_of_map_id_eq _ db.stocks _ ?_ hbound
              show (((salesRestoreLoop db.stocks db.movements
                  order.id order.items).1).map (fun x => x.id)) = _
              rw [salesRestoreLoop_fst,
                  map_field_bumpAll (fun x => x.id) (fun _ _ => rfl)]
            · intro o ho
              rcases List.mem_map.mp ho with ⟨o', ho', rfl⟩
              have hid : (if o'.id = id then
                  ({ o' with status := "cancelled" } : SalesOrder) else o').id = o'.id := by
                split <;> rfl
              rw [hid]
              exact hsids o' ho'
            · intro o ho
              rcases List.mem_map.mp ho with ⟨o', ho', rfl⟩
              have hit : (if o'.id = id then
                  ({ o' with status := "cancelled" } : SalesOrder) else o').items =
                  o'.items := by
                split <;> rfl
              rw [hit]
              exact hsq o' ho'
  | receivePurchaseOrder id =>
    unfold applyOp at hok
    cases hres : receivePurchaseOrder db id with
    | error e =>
      simp only [hres, Except.map] at hok
      exact Except.noConfusion hok
    | ok r =>
      simp only [hres, Except.map] at hok
      have hdb2 : r.2 = db2 := Except.ok.inj hok
      unfold receivePurchaseOrder at hres
      cases hord : db.purchaseOrders.find? (fun o => o.id = id) with
      | none =>
        simp only [hord] at hres
        exact Except.noConfusion hres
      | some order =>
        simp only [hord] at hres
        by_cases hc1 : order.status = "received"
        · rw [if_pos hc1] at hres
          exact Except.noConfusion hres
        · rw [if_neg hc1] at hres
          have hr2 := congrArg Prod.snd (Except.ok.inj hres)
          rw [← hdb2, ← hr2]
          have homem : order ∈ db.purchaseOrders := List.mem_of_find?_eq_some hord
          refine ⟨?_, ⟨?_, ?_⟩, hsids, hsq, ?_⟩
          · intro s' hs'
            refine bumpAll_nonneg_of_nonneg
              (order.items.map (fun it => (it.productId, it.quantity)))
              db.stocks ?_ hnn s' ?_
            · intro pd hpd
              rcases List.mem_map.mp hpd with ⟨it, hit, rfl⟩
              have := hpq order homem it hit
              omega
            · rw [← receiveLoop_fst order.items db.stocks db.movements order.id]
              exact hs'
          · show (((receiveLoop db.stocks db.movements
                order.id order.items).1).map (fun x => x.id)).Nodup
            rw [receiveLoop_fst, map_field_bumpAll (fun x => x.id) (fun _ _ => rfl)]
            exact hnid
          · refine bound_of_map_id_eq _ db.stocks _ ?_ hbound
            show (((receiveLoop db.stocks db.movements
                order.id order.items).1).map (fun x => x.id)) = _
            rw [receiveLoop_fst, map_field_bumpAll (fun x => x.id) (fun _ _ => rfl)]
          · intro o ho
            rcases List.mem_map.mp ho with ⟨o', ho', rfl⟩
            have hit : (if o'.id = id then
                ({ o' with status := "received" } : PurchaseOrder) else o').items =
                o'.items := by
              split <;> rfl
            rw [hit]
            exact hpq o' ho'
  | createStock productId warehouseId locationId quantity =>
    exact hop.elim

theorem applyOps_goodstate (ops : List Op) (db : DB) (hg : GoodState db)
    (hops : ∀ op ∈ ops, StockMutOpOK op) : GoodState (applyOps db ops) := by
  induction ops generalizing db with
  | nil => exact hg
  | cons op rest ih =>
    show GoodState (match applyOp db op with
      | .ok db1 => applyOps db1 rest
      | .error _ => applyOps db rest)
    cases happ : applyOp db op with
    | error e =>
      exact ih db hg (fun o ho => hops o (List.mem_cons_of_mem _ ho))
    | ok db1 =>
      exact ih db1
        (applyOp_goodstate db db1 op hg (hops op (List.mem_cons_self _ _)) happ)
        (fun o ho => hops o (List.mem_cons_of_mem _ ho))

/-! ## Theorems for the claims -/

/-- C2: `recordMovement` with movement type OUT, `adjustStock` with
adjustment type REMOVE, and `transferStock` throw the 400 AppError
"Insufficient stock quantity" exactly when the requested quantity exceeds
the (source) stock's current quantity, and in that error case the
transaction rolls back: the database — every stock quantity, the
`StockMovement` and `StockAdjustment` tables included — is unchanged. -/
theorem insufficient_stock_rejections (db : DB) :
    (∀ stockId quantity reason stock,
      db.stocks.find? (fun s => s.id = stockId) = some stock →
      ((recordMovement db stockId .OUT quantity reason =
          .error { message := "Insufficient stock quantity", statusCode := 400 } ↔
        stock.quantity < quantity) ∧
       (stock.quantity < quantity →
        applyOps db [.recordMovement stockId .OUT quantity reason] = db))) ∧
    (∀ stockId quantity reason approvedById stock,
      db.stocks.find? (fun s => s.id = stockId) = some stock →
      ((adjustStock db stockId .REMOVE quantity reason approvedById =
          .error { message := "Insufficient stock quantity", statusCode := 400 } ↔
        stock.quantity < quantity) ∧
       (stock.quantity < quantity →
        applyOps db [.adjustStock stockId .REMOVE quantity reason approvedById] = db))) ∧
    (∀ sourceStockId targetLocationId quantity reason stock,
      db.stocks.find? (fun s => s.id = sourceStockId) = some stock →
      ((transferStock db sourceStockId targetLocationId quantity reason =
          .error { message := "Insufficient stock quantity", statusCode := 400 } ↔
        stock.quantity < quantity) ∧
       (stock.quantity < quantity →
        applyOps db [.transferStock sourceStockId targetLocationId quantity reason] = db))) := by
  refine ⟨fun stockId q r stock hfind => ?_,
          fun stockId q r aid stock hfind => ?_,
          fun sid tloc q r stock hfind => ?_⟩
  · have herr : stock.quantity < q → recordMovement db stockId .OUT q r =
        .error { message := "Insufficient stock quantity", statusCode := 400 } := by
      intro hq
      simp [recordMovement, hfind, hq]
    have hok : ¬ stock.quantity < q → recordMovement db stockId .OUT q r ≠
        .error { message := "Insufficient stock quantity", statusCode := 400 } := by
      intro hq
      simp [recordMovement, hfind, hq]
    refine ⟨⟨fun h => ?_, herr⟩, fun hq => ?_⟩
    · by_cases hq : stock.quantity < q
      · exact hq
      · exact absurd h (hok hq)
    · have h := herr hq
      simp [applyOps, applyOp, h]
  · have herr : stock.quantity < q → adjustStock db stockId .REMOVE q r aid =
        .error { message := "Insufficient stock quantity", statusCode := 400 } := by
      intro hq
      simp [adjustStock, hfind, hq]
    have hok : ¬ stock.quantity < q → adjustStock db stockId .REMOVE q r aid ≠
        .error { message := "Insufficient stock quantity", statusCode := 400 } := by
      intro hq
      simp [adjustStock, hfind, hq]
    refine ⟨⟨fun h => ?_, herr⟩, fun hq => ?_⟩
    · by_cases hq : stock.quantity < q
      · exact hq
      · exact absurd h (hok hq)
    · have h := herr hq
      simp [applyOps, applyOp, h]
  · have herr : stock.quantity < q → transferStock db sid tloc q r =
        .error { message := "Insufficient stock quantity", statusCode := 400 } := by
      intro hq
      simp [transferStock, hfind, hq]
    have hok : ¬ stock.quantity < q → transferStock db sid tloc q r ≠
        .error { message := "Insufficient stock quantity", statusCode := 400 } := by
      intro hq
      cases hloc : db.locations.find? (fun l => l.id = tloc) with
      | none => simp [transferStock, hfind, hq, hloc]
      | some L =>
        cases htgt : db.stocks.find?
            (fun s => s.productId = stock.productId ∧ s.locationId = tloc) with
        | none => simp [transferStock, hfind, hq, hloc, htgt]
        | some t => simp [transferStock, hfind, hq, hloc, htgt]
    refine ⟨⟨fun h => ?_, herr⟩, fun hq => ?_⟩
    · by_cases hq : stock.quantity < q
      · exact hq
      · exact absurd h (hok hq)
    · have h := herr hq
      simp [applyOps, applyOp, h]

/-- Witness for C2: in the sample database the stock with id 1 holds 5, so
requesting 10 is rejected by all three operations. -/
theorem insufficient_stock_rejections_witness :
    recordMovement sampleDB 1 .OUT 10 "r" =
      .error { message := "Insufficient stock quantity", statusCode := 400 } ∧
    adjustStock sampleDB 1 .REMOVE 10 "r" 1 =
      .error { message := "Insufficient stock quantity", statusCode := 400 } ∧
    transferStock sampleDB 1 2 10 "r" =
      .error { message := "Insufficient stock quantity", statusCode := 400 } ∧
    applyOps sampleDB [.recordMovement 1 .OUT 10 "r"] = sampleDB :=
  ⟨((insufficient_stock_rejections sampleDB).1 1 10 "r"
      { id := 1, productId := 1, warehouseId := 1, locationId := 1, quantity := 5 }
      rfl).1.mpr (by decide),
   ((insufficient_stock_rejections sampleDB).2.1 1 10 "r" 1
      { id := 1, productId := 1, warehouseId := 1, locationId := 1, quantity := 5 }
      rfl).1.mpr (by decide),
   ((insufficient_stock_rejections sampleDB).2.2 1 2 10 "r"
      { id := 1, productId := 1, warehouseId := 1, locationId := 1, quantity := 5 }
      rfl).1.mpr (by decide),
   ((insufficient_stock_rejections sampleDB).1 1 10 "r"
      { id := 1, productId := 1, warehouseId := 1, locationId := 1, quantity := 5 }
      rfl).2 (by decide)⟩

/-- C5: `createProduct` throws a 400 AppError whose message names the
duplicate ("Product with same SKU already exists" when an existing product
has the request's `sku`, "Product with same barcode already exists" when
one has the request's `barcode`) exactly when such a duplicate exists, and
in that case no product is created; when neither matches and the
referenced category, supplier and warehouse exist, the product is
appended to the product table. -/
theorem createProduct_spec (db : DB) (data : ProductData) :
    ((∃ q ∈ db.products, q.sku = data.sku ∨ q.barcode = data.barcode) ↔
      (∃ e, createProduct db data = .error e ∧ e.statusCode = 400 ∧
        (e.message = "Product with same SKU already exists" ∨
         e.message = "Product with same barcode already exists"))) ∧
    ((∃ q ∈ db.products, q.sku = data.sku) →
     (∀ q ∈ db.products, q.barcode ≠ data.barcode) →
      createProduct db data =
        .error { message := "Product with same SKU already exists", statusCode := 400 }) ∧
    ((∃ q ∈ db.products, q.barcode = data.barcode) →
     (∀ q ∈ db.products, q.sku ≠ data.sku) →
      createProduct db data =
        .error { message := "Product with same barcode already exists", statusCode := 400 }) ∧
    ((∀ q ∈ db.products, q.sku ≠ data.sku ∧ q.barcode ≠ data.barcode) →
     (∃ c ∈ db.categories, c.id = data.categoryId) →
     (∃ s ∈ db.suppliers, s.id = data.supplierId) →
     (∃ w ∈ db.warehouses, w.id = data.warehouseId) →
      ∃ prod db2, createProduct db data = .ok (prod, db2) ∧
        db2.products = db.products ++ [prod] ∧
        prod.sku = data.sku ∧ prod.barcode = data.barcode ∧ prod.name = data.name) := by
  refine ⟨⟨?_, ?_⟩, ?_, ?_, ?_⟩
  · rintro ⟨q, hq, hor⟩
    have hsome : (db.products.find?
        (fun p => p.sku = data.sku ∨ p.barcode = data.barcode)).isSome := by
      rw [List.find?_isSome]
      exact ⟨q, hq, by simpa using hor⟩
    obtain ⟨ex, hex⟩ := Option.isSome_iff_exists.mp hsome
    by_cases hsku : ex.sku = data.sku
    · refine ⟨{ message := "Product with same SKU already exists", statusCode := 400 },
        ?_, rfl, Or.inl rfl⟩
      unfold createProduct
      simp only [hex]
      rw [if_pos hsku]
      rfl
    · refine ⟨{ message := "Product with same barcode already exists", statusCode := 400 },
        ?_, rfl, Or.inr rfl⟩
      unfold createProduct
      simp only [hex]
      rw [if_neg hsku]
      rfl
  · rintro ⟨e, herr, hst, hmsg⟩
    by_contra hnodup
    push_neg at hnodup
    have hnone : db.products.find?
        (fun p => p.sku = data.sku ∨ p.barcode = data.barcode) = none := by
      rw [List.find?_eq_none]
      intro p hp
      have := hnodup p hp
      simp only [decide_eq_true_eq]
      tauto
    cases hc : db.categories.find? (fun c => c.id = data.categoryId) with
    | none =>
      have hch : createProduct db data =
          .error { message := "Category not found", statusCode := 400 } := by
        unfold createProduct
        simp only [hnone, hc]
      rw [hch] at herr
      have he : ({ message := "Category not found", statusCode := 400 } : AppError) = e :=
        Except.error.inj herr
      rw [← he] at hmsg
      exact absurd hmsg (by decide)
    | some c =>
      cases hs : db.suppliers.find? (fun s => s.id = data.supplierId) with
      | none =>
        have hch : createProduct db data =
            .error { message := "Supplier not found", statusCode := 400 } := by
          unfold createProduct
          simp only [hnone, hc, hs]
        rw [hch] at herr
        have he : ({ message := "Supplier not found", statusCode := 400 } : AppError) = e :=
          Except.error.inj herr
        rw [← he] at hmsg
        exact absurd hmsg (by decide)
      | some s =>
        cases hw : db.warehouses.find? (fun w => w.id = data.warehouseId) with
        | none =>
          have hch : createProduct db data =
              .error { message := "Warehouse not found", statusCode := 400 } := by
            unfold createProduct
            simp only [hnone, hc, hs, hw]
          rw [hch] at herr
          have he : ({ message := "Warehouse not found", statusCode := 400 } : AppError) = e :=
            Except.error.inj herr
          rw [← he] at hmsg
          exact absurd hmsg (by decide)
        | some w =>
          have hch : createProduct db data = .ok
              ({ id := db.nextProductId, name := data.name, sku := data.sku,
                 barcode := data.barcode, categoryId := data.categoryId,
                 supplierId := data.supplierId, warehouseId := data.warehouseId,
                 unitPrice := data.unitPrice, price := data.price },
               { db with
                 products := db.products ++
                   [{ id := db.nextProductId, name := data.name, sku := data.sku,
                      barcode := data.barcode, categoryId := data.categoryId,
                      supplierId := data.supplierId, warehouseId := data.warehouseId,
                      unitPrice := data.unitPrice, price := data.price }],
                 nextProductId := db.nextProductId + 1 }) := by
            unfold createProduct
            simp only [hnone, hc, hs, hw]
          rw [hch] at herr
          exact absurd herr (by simp)
  · rintro ⟨q, hq, hsku⟩ hnobc
    have hsome : (db.products.find?
        (fun p => p.sku = data.sku ∨ p.barcode = data.barcode)).isSome := by
      rw [List.find?_isSome]
      exact ⟨q, hq, by simp [hsku]⟩
    obtain ⟨ex, hex⟩ := Option.isSome_iff_exists.mp hsome
    have hmem : ex ∈ db.products := List.mem_of_find?_eq_some hex
    have hprop : ex.sku = data.sku ∨ ex.barcode = data.barcode := by
      simpa using List.find?_some hex
    have hexsku : ex.sku = data.sku := hprop.resolve_right (hnobc ex hmem)
    unfold createProduct
    simp only [hex]
    rw [if_pos hexsku]
    rfl
  · rintro ⟨q, hq, hbc⟩ hnosku
    have hsome : (db.products.find?
        (fun p => p.sku = data.sku ∨ p.barcode = data.barcode)).isSome := by
      rw [List.find?_isSome]
      exact ⟨q, hq, by simp [hbc]⟩
    obtain ⟨ex, hex⟩ := Option.isSome_iff_exists.mp hsome
    have hmem : ex ∈ db.products := List.mem_of_find?_eq_some hex
    have hexsku : ¬ ex.sku = data.sku := hnosku ex hmem
    unfold createProduct
    simp only [hex]
    rw [if_neg hexsku]
    rfl
  · intro hnodup hcat hsup hwh
    have hnone : db.products.find?
        (fun p => p.sku = data.sku ∨ p.barcode = data.barcode) = none := by
      rw [List.find?_eq_none]
      intro p hp
      have := hnodup p hp
      simp only [decide_eq_true_eq]
      tauto
    obtain ⟨c, hcm, hcid⟩ := hcat
    have hcf : (db.categories.find? (fun c => c.id = data.categoryId)).isSome := by
      rw [List.find?_isSome]
      exact ⟨c, hcm, by simp [hcid]⟩
    obtain ⟨c', hc'⟩ := Option.isSome_iff_exists.mp hcf
    obtain ⟨s, hsm, hsid⟩ := hsup
    have hsf : (db.suppliers.find? (fun s => s.id = data.supplierId)).isSome := by
      rw [List.find?_isSome]
      exact ⟨s, hsm, by simp [hsid]⟩
    obtain ⟨s', hs'⟩ := Option.isSome_iff_exists.mp hsf
    obtain ⟨w, hwm, hwid⟩ := hwh
    have hwf : (db.warehouses.find? (fun w => w.id = data.warehouseId)).isSome := by
      rw [List.find?_isSome]
      exact ⟨w, hwm, by simp [hwid]⟩
    obtain ⟨w', hw'⟩ := Option.isSome_iff_exists.mp hwf
    have hchar : createProduct db data = .ok
        ({ id := db.nextProductId, name := data.name, sku := data.sku,
           barcode := data.barcode, categoryId := data.categoryId,
           supplierId := data.supplierId, warehouseId := data.warehouseId,
           unitPrice := data.unitPrice, price := data.price },
         { db with
           products := db.products ++
             [{ id := db.nextProductId, name := data.name, sku := data.sku,
                barcode := data.barcode, categoryId := data.categoryId,
                supplierId := data.supplierId, warehouseId := data.warehouseId,
                unitPrice := data.unitPrice, price := data.price }],
           nextProductId := db.nextProductId + 1 }) := by
      unfold createProduct
      simp only [hnone, hc', hs', hw']
    exact ⟨_, _, hchar, rfl, rfl, rfl, rfl⟩

/-- Witness for C5: in the sample database SKU1 is taken, so creating a
product with sku SKU1 is rejected naming the SKU, and creating one with
fresh sku and barcode succeeds. -/
theorem createProduct_spec_witness :
    createProduct sampleDB
      { name := "Widget clone", sku := "SKU1", barcode := "BC9", categoryId := 1,
        supplierId := 1, warehouseId := 1, unitPrice := 1, price := 2 } =
      .error { message := "Product with same SKU already exists", statusCode := 400 } ∧
    ∃ prod db2, createProduct sampleDB
      { name := "Gizmo", sku := "SKU3", barcode := "BC3", categoryId := 1,
        supplierId := 1, warehouseId := 1, unitPrice := 1, price := 2 } =
      .ok (prod, db2) ∧ db2.products = sampleDB.products ++ [prod] ∧
      prod.sku = "SKU3" ∧ prod.barcode = "BC3" ∧ prod.name = "Gizmo" :=
  ⟨(createProduct_spec sampleDB
      { name := "Widget clone", sku := "SKU1", barcode := "BC9", categoryId := 1,
        supplierId := 1, warehouseId := 1, unitPrice := 1, price := 2 }).2.1
      ⟨{ id := 1, name := "Widget", sku := "SKU1", barcode := "BC1", categoryId := 1,
         supplierId := 1, warehouseId := 1, unitPrice := 10, price := 15 },
       by decide, by decide⟩
      (by decide),
   (createProduct_spec sampleDB
      { name := "Gizmo", sku := "SKU3", barcode := "BC3", categoryId := 1,
        supplierId := 1, warehouseId := 1, unitPrice := 1, price := 2 }).2.2.2
      (by decide)
      ⟨{ id := 1, name := "General" }, by decide, by decide⟩
      ⟨{ id := 1, name := "Acme", email := "acme@example.com" }, by decide, by decide⟩
      ⟨{ id := 1, name := "Main", capacity := 100, address := "1 Main St" },
       by decide, by decide⟩⟩

/-- C1 (counterexample): in the sample database every stock quantity is
non-negative and every requested quantity is at least 1, yet one
`createSalesOrder` whose items mention product 1 twice (3 + 3 against a
stock of 5, each passing the per-item availability check taken on the
pre-transaction snapshot) drives that stock's quantity to -1. -/
theorem createSalesOrder_duplicate_negative :
    (∀ s ∈ sampleDB.stocks, 0 ≤ s.quantity) ∧
    ((applyOps sampleDB [.createSalesOrder 7
        [{ productId := 1, quantity := 3, unitPrice := 10 },
         { productId := 1, quantity := 3, unitPrice := 10 }]]).stocks.map
      (fun s => s.quantity)) = [-1, 3] :=
  ⟨by decide, rfl⟩

/-- C1 (amended): every sequence of the six stock-mutation operations,
applied to a well-formed state (non-negative stock quantities, sound
auto-increment keys, stored order items requesting at least 1) with every
requested quantity at least 1 and every `createSalesOrder` items list
mentioning each product at most once, keeps every Stock row's quantity
non-negative. -/
theorem stock_mutation_nonneg_invariant (db : DB) (ops : List Op)
    (hg : GoodState db) (hops : ∀ op ∈ ops, StockMutOpOK op) :
    ∀ s ∈ (applyOps db ops).stocks, 0 ≤ s.quantity :=
  (applyOps_goodstate ops db hg hops).1

/-- Witness for C1's amended invariant at a concrete run: an OUT movement
of 2, a one-item sale and a purchase-order receipt on the sample
database keep every quantity non-negative. -/
theorem stock_mutation_nonneg_invariant_witness :
    ((applyOps sampleDB
      [.recordMovement 1 .OUT 2 "shrinkage",
       .createSalesOrder 7 [{ productId := 2, quantity := 1, unitPrice := 8 }],
       .receivePurchaseOrder 1]).stocks.all (fun s => 0 ≤ s.quantity)) = true :=
  List.all_eq_true.mpr (fun s hs => decide_eq_true
    (stock_mutation_nonneg_invariant sampleDB
      [.recordMovement 1 .OUT 2 "shrinkage",
       .createSalesOrder 7 [{ productId := 2, quantity := 1, unitPrice := 8 }],
       .receivePurchaseOrder 1]
      ⟨by unfold StocksNonneg; decide,
       ⟨by decide, by decide⟩,
       by unfold SalesIdsOK; decide,
       by decide, by decide⟩
      (by
        intro op hop
        rcases List.mem_cons.mp hop with h | hop2
        · subst h
          show (1 : Int) ≤ 2
          decide
        rcases List.mem_cons.mp hop2 with h | hop3
        · subst h
          refine ⟨?_, by decide⟩
          intro it hit
          rw [List.mem_singleton.mp hit]
        rcases List.mem_cons.mp hop3 with h | hop4
        · subst h
          trivial
        · exact absurd hop4 (List.not_mem_nil _))
      s hs))

/-- C3 (counterexample): transferring 2 units of product 1 from stock 1 to
its own location (location 1) in the sample database increases the
product's total stock from 5 to 7 — the second quantity update, computed
from the pre-transfer snapshot, overwrites the decrement — so the total is
not preserved for every choice of target location. -/
theorem transferStock_same_location_counterexample :
    (transferStock sampleDB 1 1 2 "mv").map (fun d => totalQuantity d 1) =
      .ok (totalQuantity sampleDB 1 + 2) ∧
    totalQuantity sampleDB 1 = 5 := by
  constructor <;> rfl

/-- C3 (amended): a successful transfer of quantity `q` to a target
location DIFFERENT from the source stock's own location preserves the
product's total quantity: the source row decreases by exactly `q` and the
first row of the product at the target location increases by exactly `q`
(a row being created with quantity 0 first when absent). -/
theorem transferStock_preserves_total (db : DB) (sid tloc : Nat) (q : Int) (r : String)
    (s : Stock) (L : Location) (db2 : DB)
    (hn : (db.stocks.map (fun x => x.id)).Nodup)
    (hfresh : ∀ x ∈ db.stocks, x.id < db.nextStockId)
    (hs : db.stocks.find? (fun x => x.id = sid) = some s)
    (hq : q ≤ s.quantity)
    (hL : db.locations.find? (fun l => l.id = tloc) = some L)
    (hne : tloc ≠ s.locationId)
    (hok : transferStock db sid tloc q r = .ok db2) :
    totalQuantity db2 s.productId = totalQuantity db s.productId ∧
    (db2.stocks.find? (fun x => x.id = sid)).map (fun x => x.quantity) =
      some (s.quantity - q) ∧
    ((db2.stocks.find? (fun t => t.productId = s.productId ∧ t.locationId = tloc)).map
        (fun t => t.quantity)).getD 0 =
      ((db.stocks.find? (fun t => t.productId = s.productId ∧ t.locationId = tloc)).map
        (fun t => t.quantity)).getD 0 + q := by
  have hsid : s.id = sid := by simpa using List.find?_some hs
  have hsmem : s ∈ db.stocks := List.mem_of_find?_eq_some hs
  have hnlt : ¬ s.quantity < q := not_lt.mpr hq
  cases hfound : db.stocks.find?
      (fun t => t.productId = s.productId ∧ t.locationId = tloc) with
  | some t =>
    unfold transferStock at hok
    simp only [hs, if_neg hnlt, hL, hfound] at hok
    have hdb2 := (Except.ok.inj hok).symm
    subst hdb2
    have htprop : t.productId = s.productId ∧ t.locationId = tloc := by
      simpa using List.find?_some hfound
    have htmem : t ∈ db.stocks := List.mem_of_find?_eq_some hfound
    have hts : t ≠ s := fun he => hne (by rw [← htprop.2, he])
    have htid : ¬ t.id = sid := by
      rw [← hsid]
      exact fun he => hts (List.inj_on_of_nodup_map hn htmem hsmem he)
    have hst2 : ¬ s.id = t.id := by
      rw [hsid]
      exact fun he => htid he.symm
    have hn1 : ((updateStockQuantity db.stocks sid (s.quantity - q)).map
        (fun x => x.id)).Nodup := by
      rw [map_field_updateStockQuantity (fun x => x.id) (fun _ _ => rfl)]
      exact hn
    have hft : db.stocks.find? (fun x => x.id = t.id) = some t :=
      find?_id_of_mem db.stocks hn t htmem
    have hft1 : (updateStockQuantity db.stocks sid (s.quantity - q)).find?
        (fun x => x.id = t.id) = some t := by
      rw [find?_updateStockQuantity (fun x => x.id = t.id) (fun _ _ => rfl), hft]
      simp [htid]
    have hsum1 := sum_quantity_filter_update db.stocks sid (s.quantity - q)
      s.productId hn s hs
    rw [if_pos rfl] at hsum1
    have hsum2 := sum_quantity_filter_update
      (updateStockQuantity db.stocks sid (s.quantity - q)) t.id (t.quantity + q)
      s.productId hn1 t hft1
    rw [if_pos htprop.1] at hsum2
    refine ⟨?_, ?_, ?_⟩
    · dsimp only [totalQuantity]
      rw [hsum2, hsum1]
      ring
    · dsimp only
      rw [find?_updateStockQuantity (fun x => x.id = sid) (fun _ _ => rfl),
          find?_updateStockQuantity (fun x => x.id = sid) (fun _ _ => rfl), hs]
      have hsid2 : ¬ sid = t.id := fun he => htid he.symm
      simp [hsid, hst2, hsid2]
    · dsimp only
      rw [find?_updateStockQuantity
            (fun t => t.productId = s.productId ∧ t.locationId = tloc) (fun _ _ => rfl),
          find?_updateStockQuantity
            (fun t => t.productId = s.productId ∧ t.locationId = tloc) (fun _ _ => rfl),
          hfound]
      simp [htid]
  | none =>
    unfold transferStock at hok
    simp only [hs, if_neg hnlt, hL, hfound] at hok
    have hdb2 := (Except.ok.inj hok).symm
    subst hdb2
    have hsidlt : sid < db.nextStockId := by
      rw [← hsid]
      exact hfresh s hsmem
    have hfreshne : ∀ x ∈ db.stocks, x.id ≠
        ({ id := db.nextStockId, productId := s.productId,
           warehouseId := L.warehouseId, locationId := tloc, quantity := 0 } : Stock).id :=
      fun x hx => Nat.ne_of_lt (hfresh x hx)
    have hl1n : (((db.stocks ++
        [({ id := db.nextStockId, productId := s.productId,
            warehouseId := L.warehouseId, locationId := tloc, quantity := 0 } : Stock)]).map
        (fun x => x.id))).Nodup := by
      rw [List.map_append, List.nodup_append]
      refine ⟨hn, by simp, ?_⟩
      intro a ha
      simp only [List.map_cons, List.map_nil]
      rcases List.mem_map.mp ha with ⟨x, hx, rfl⟩
      simp [hfreshne x hx]
    have hsl1 : ((db.stocks ++
        [({ id := db.nextStockId, productId := s.productId,
            warehouseId := L.warehouseId, locationId := tloc, quantity := 0 } : Stock)]).find?
        (fun x => x.id = sid)) = some s := find?_id_append_left _ _ _ _ hs
    have hftnew : ((db.stocks ++
        [({ id := db.nextStockId, productId := s.productId,
            warehouseId := L.warehouseId, locationId := tloc, quantity := 0 } : Stock)]).find?
        (fun x => x.id = db.nextStockId)) = some
        { id := db.nextStockId, productId := s.productId,
          warehouseId := L.warehouseId, locationId := tloc, quantity := 0 } :=
      find?_id_append_fresh db.stocks _ hfreshne
    have hn1 : ((updateStockQuantity (db.stocks ++
        [({ id := db.nextStockId, productId := s.productId,
            warehouseId := L.warehouseId, locationId := tloc, quantity := 0 } : Stock)])
        sid (s.quantity - q)).map (fun x => x.id)).Nodup := by
      rw [map_field_updateStockQuantity (fun x => x.id) (fun _ _ => rfl)]
      exact hl1n
    have hnewsid : ¬ (db.nextStockId = sid) := fun he => absurd he.symm (Nat.ne_of_lt hsidlt)
    have hfnew1 : (updateStockQuantity (db.stocks ++
        [({ id := db.nextStockId, productId := s.productId,
            warehouseId := L.warehouseId, locationId := tloc, quantity := 0 } : Stock)])
        sid (s.quantity - q)).find? (fun x => x.id = db.nextStockId) = some
        { id := db.nextStockId, productId := s.productId,
          warehouseId := L.warehouseId, locationId := tloc, quantity := 0 } := by
      rw [find?_updateStockQuantity (fun x => x.id = db.nextStockId) (fun _ _ => rfl),
          hftnew]
      simp [hnewsid]
    have hsing : ((([({ id := db.nextStockId, productId := s.productId,
                        warehouseId := L.warehouseId, locationId := tloc,
                        quantity := 0 } : Stock)]).filter
        (fun x => x.productId = s.productId)).map (fun x => x.quantity)).sum = 0 := by
      simp [List.filter_cons]
    have hsuml1 := sum_quantity_filter_append db.stocks
      [{ id := db.nextStockId, productId := s.productId,
         warehouseId := L.warehouseId, locationId := tloc, quantity := 0 }] s.productId
    rw [hsing] at hsuml1
    have hsum1 := sum_quantity_filter_update (db.stocks ++
      [{ id := db.nextStockId, productId := s.productId,
         warehouseId := L.warehouseId, locationId := tloc, quantity := 0 }])
      sid (s.quantity - q) s.productId hl1n s hsl1
    rw [if_pos rfl] at hsum1
    have hsum2 := sum_quantity_filter_update
      (updateStockQuantity (db.stocks ++
        [({ id := db.nextStockId, productId := s.productId,
            warehouseId := L.warehouseId, locationId := tloc, quantity := 0 } : Stock)])
        sid (s.quantity - q))
      db.nextStockId (0 + q) s.productId hn1 _ hfnew1
    rw [if_pos rfl] at hsum2
    have hfl1K : ((db.stocks ++
        [({ id := db.nextStockId, productId := s.productId,
            warehouseId := L.warehouseId, locationId := tloc, quantity := 0 } : Stock)]).find?
        (fun t => t.productId = s.productId ∧ t.locationId = tloc)) = some
        { id := db.nextStockId, productId := s.productId,
          warehouseId := L.warehouseId, locationId := tloc, quantity := 0 } := by
      rw [find?_key_append, hfound]
      simp
    refine ⟨?_, ?_, ?_⟩
    · dsimp only [totalQuantity]
      rw [hsum2, hsum1, hsuml1]
      ring
    · dsimp only
      rw [find?_updateStockQuantity (fun x => x.id = sid) (fun _ _ => rfl),
          find?_updateStockQuantity (fun x => x.id = sid) (fun _ _ => rfl), hsl1]
      simp [hsid, Nat.ne_of_lt hsidlt]
    · dsimp only
      rw [find?_updateStockQuantity
            (fun t => t.productId = s.productId ∧ t.locationId = tloc) (fun _ _ => rfl),
          find?_updateStockQuantity
            (fun t => t.productId = s.productId ∧ t.locationId = tloc) (fun _ _ => rfl),
          hfl1K]
      simp [hnewsid]

/-- Witness for C3 at a concrete input: transferring 2 units of product 1
from stock 1 (location 1) to location 2 in the sample database succeeds
and preserves the product's total quantity. -/
theorem transferStock_preserves_total_witness :
    ∃ db2, transferStock sampleDB 1 2 2 "mv" = .ok db2 ∧
      totalQuantity db2 1 = totalQuantity sampleDB 1 :=
  ⟨_, rfl,
   (transferStock_preserves_total sampleDB 1 2 2 "mv"
      { id := 1, productId := 1, warehouseId := 1, locationId := 1, quantity := 5 }
      { id := 2, name := "A2", warehouseId := 1 } _
      (by decide) (by decide) rfl (by decide) rfl (by decide) rfl).1⟩

/-- C9: receiving a purchase order whose status is not "received" always
sets the order's status to "received"; every order item whose product has
no Stock row is silently skipped (no stock row is created or changed for
it and no movement is recorded for it), while for a product that does
have a Stock row the first such row's quantity grows by that product's
item quantities and one IN movement per item is recorded; no stock row is
created or deleted. -/
theorem receivePurchaseOrder_spec (db : DB) (oid : Nat) (order o2 : PurchaseOrder)
    (db2 : DB)
    (hn : (db.stocks.map (fun x => x.id)).Nodup)
    (hord : db.purchaseOrders.find? (fun o => o.id = oid) = some order)
    (hst : ¬ order.status = "received")
    (hok : receivePurchaseOrder db oid = .ok (o2, db2)) :
    o2.status = "received" ∧
    (db2.purchaseOrders.find? (fun o => o.id = oid)).map (fun o => o.status) =
      some "received" ∧
    (∀ p, (db2.stocks.find? (fun s => s.productId = p)).map (fun s => s.quantity) =
      (db.stocks.find? (fun s => s.productId = p)).map
        (fun s => s.quantity + itemsSum p order.items)) ∧
    db2.stocks.map (fun s => (s.id, s.productId, s.locationId)) =
      db.stocks.map (fun s => (s.id, s.productId, s.locationId)) ∧
    db2.movements = db.movements ++ order.items.filterMap (fun it =>
      (db.stocks.find? (fun s => s.productId = it.productId)).map (fun s =>
        ({ stockId := s.id, movementType := .IN, quantity := it.quantity,
           reason := "Purchase Order #" ++ toString oid ++ " received" } :
          StockMovement))) := by
  have hoid : order.id = oid := by simpa using List.find?_some hord
  unfold receivePurchaseOrder at hok
  simp only [hord, if_neg hst] at hok
  have hpair := Except.ok.inj hok
  have ho2 : o2 = { order with status := "received" } := (congrArg Prod.fst hpair).symm
  have hdb2 : db2 = { db with
      stocks := (receiveLoop db.stocks db.movements order.id order.items).1,
      movements := (receiveLoop db.stocks db.movements order.id order.items).2,
      purchaseOrders := db.purchaseOrders.map
        (fun o => if o.id = oid then { o with status := "received" } else o) } :=
    (congrArg Prod.snd hpair).symm
  subst ho2
  subst hdb2
  refine ⟨rfl, ?_, ?_, ?_, ?_⟩
  · show ((db.purchaseOrders.map
        (fun o => if o.id = oid then { o with status := "received" } else o)).find?
        (fun o => o.id = oid)).map (fun o => o.status) = some "received"
    rw [find?_purchase_update_status, hord]
    simp [hoid]
  · intro p
    show (((receiveLoop db.stocks db.movements order.id order.items).1).find?
        (fun s => s.productId = p)).map (fun s => s.quantity) = _
    rw [receiveLoop_fst, find?_bumpAll _ _ _ hn, deltasSum_map_items]
    cases db.stocks.find? (fun s => s.productId = p) with
    | none => rfl
    | some s => rfl
  · show ((receiveLoop db.stocks db.movements order.id order.items).1).map
        (fun s => (s.id, s.productId, s.locationId)) = _
    rw [receiveLoop_fst,
        map_field_bumpAll (fun s => (s.id, s.productId, s.locationId)) (fun _ _ => rfl)]
  · show (receiveLoop db.stocks db.movements order.id order.items).2 = _
    rw [receiveLoop_snd _ _ _ _ hn, hoid]

/-- Witness for C9: receiving the open purchase order 1 of the sample
database (4 units of stocked product 1, 2 units of unstocked product 3)
succeeds with every consequence of the theorem at this input. -/
theorem receivePurchaseOrder_spec_witness :
    ∃ o2 db2, receivePurchaseOrder sampleDB 1 = .ok (o2, db2) ∧
      o2.status = "received" ∧
      (db2.stocks.find? (fun s => s.productId = 1)).map (fun s => s.quantity) =
        (sampleDB.stocks.find? (fun s => s.productId = 1)).map
          (fun s => s.quantity + itemsSum 1
            [{ productId := 1, quantity := 4, unitPrice := 10 },
             { productId := 3, quantity := 2, unitPrice := 7 }]) :=
  ⟨_, _, rfl,
   (receivePurchaseOrder_spec sampleDB 1
      { id := 1, supplierId := 1, status := "open",
        items := [{ productId := 1, quantity := 4, unitPrice := 10 },
                  { productId := 3, quantity := 2, unitPrice := 7 }] }
      _ _ (by decide) rfl (by decide) rfl).1,
   ((receivePurchaseOrder_spec sampleDB 1
      { id := 1, supplierId := 1, status := "open",
        items := [{ productId := 1, quantity := 4, unitPrice := 10 },
                  { productId := 3, quantity := 2, unitPrice := 7 }] }
      _ _ (by decide) rfl (by decide) rfl).2.2.1 1)⟩

/-- C4: whenever `createSalesOrder` succeeds, cancelling the created order
succeeds, restores every Stock row exactly (the restore loop resolves each
item to the same first row per product as the reduction loop and adds the
quantity back), and leaves the order's status "cancelled"; cancelling an
order already "cancelled" or "completed" throws a 400 AppError and rolls
back, changing nothing. -/
theorem createSalesOrder_cancel_roundtrip (db : DB) :
    (∀ customerId items order db1,
      (db.stocks.map (fun x => x.id)).Nodup →
      (∀ o ∈ db.salesOrders, o.id < db.nextSalesOrderId) →
      createSalesOrder db customerId items = .ok (order, db1) →
      ∃ o2 db2, cancelSalesOrder db1 order.id = .ok (o2, db2) ∧
        db2.stocks = db.stocks ∧
        o2.status = "cancelled" ∧
        (db2.salesOrders.find? (fun o => o.id = order.id)).map (fun o => o.status) =
          some "cancelled") ∧
    (∀ id order, db.salesOrders.find? (fun o => o.id = id) = some order →
      (order.status = "cancelled" ∨ order.status = "completed") →
      (∃ e, cancelSalesOrder db id = .error e ∧ e.statusCode = 400) ∧
      applyOps db [.cancelSalesOrder id] = db) := by
  constructor
  · intro customerId items order db1 hn hsids hok
    unfold createSalesOrder at hok
    by_cases hempty : items.isEmpty
    · simp [hempty] at hok
    · by_cases hfail : (items.filterMap (stockCheckFailure db)).isEmpty
      · simp only [hempty, Bool.false_eq_true, if_false, hfail, if_true] at hok
        have hpair := Except.ok.inj hok
        have hord : order =
            { id := db.nextSalesOrderId, customerId := customerId,
              status := "open", items := items } := (congrArg Prod.fst hpair).symm
        have hdb1 : db1 = { db with
            salesOrders := db.salesOrders ++
              [({ id := db.nextSalesOrderId, customerId := customerId,
                  status := "open", items := items } : SalesOrder)],
            nextSalesOrderId := db.nextSalesOrderId + 1,
            stocks := (salesReduceLoop db.stocks db.movements
              db.nextSalesOrderId items).1,
            movements := (salesReduceLoop db.stocks db.movements
              db.nextSalesOrderId items).2 } := (congrArg Prod.snd hpair).symm
        subst hord
        subst hdb1
        have hnone : db.salesOrders.find?
            (fun o => o.id = db.nextSalesOrderId) = none := by
          rw [List.find?_eq_none]
          intro o ho
          simpa using Nat.ne_of_lt (hsids o ho)
        have hfind1 : ((db.salesOrders ++
            [({ id := db.nextSalesOrderId, customerId := customerId,
                status := "open", items := items } : SalesOrder)]).find?
            (fun o => o.id = db.nextSalesOrderId)) = some
            { id := db.nextSalesOrderId, customerId := customerId,
              status := "open", items := items } := by
          rw [List.find?_append, hnone]
          simp
        have hcan : cancelSalesOrder
            { db with
              salesOrders := db.salesOrders ++
                [({ id := db.nextSalesOrderId, customerId := customerId,
                    status := "open", items := items } : SalesOrder)],
              nextSalesOrderId := db.nextSalesOrderId + 1,
              stocks := (salesReduceLoop db.stocks db.movements
                db.nextSalesOrderId items).1,
              movements := (salesReduceLoop db.stocks db.movements
                db.nextSalesOrderId items).2 }
            db.nextSalesOrderId = .ok
            ({ id := db.nextSalesOrderId, customerId := customerId,
               status := "cancelled", items := items },
             { db with
               salesOrders := (db.salesOrders ++
                 [({ id := db.nextSalesOrderId, customerId := customerId,
                     status := "open", items := items } : SalesOrder)]).map
                 (fun o => if o.id = db.nextSalesOrderId then
                    { o with status := "cancelled" } else o),
               nextSalesOrderId := db.nextSalesOrderId + 1,
               stocks := (salesRestoreLoop
                 (salesReduceLoop db.stocks db.movements db.nextSalesOrderId items).1
                 (salesReduceLoop db.stocks db.movements db.nextSalesOrderId items).2
                 db.nextSalesOrderId items).1,
               movements := (salesRestoreLoop
                 (salesReduceLoop db.stocks db.movements db.nextSalesOrderId items).1
                 (salesReduceLoop db.stocks db.movements db.nextSalesOrderId items).2
                 db.nextSalesOrderId items).2 }) := by
          unfold cancelSalesOrder
          simp only [hfind1]
          rw [if_neg (by decide), if_neg (by decide)]
        refine ⟨_, _, hcan, ?_, rfl, ?_⟩
        · show (salesRestoreLoop
              (salesReduceLoop db.stocks db.movements db.nextSalesOrderId items).1
              (salesReduceLoop db.stocks db.movements db.nextSalesOrderId items).2
              db.nextSalesOrderId items).1 = db.stocks
          rw [salesRestoreLoop_fst, salesReduceLoop_fst]
          have hmm : items.map (fun it => (it.productId, -it.quantity)) =
              (items.map (fun it => (it.productId, it.quantity))).map
                (fun pd => (pd.1, -pd.2)) := by
            rw [List.map_map]
            rfl
          rw [hmm]
          exact bumpAll_inv (items.map (fun it => (it.productId, it.quantity))) db.stocks hn
        · show (((db.salesOrders ++
              [({ id := db.nextSalesOrderId, customerId := customerId,
                  status := "open", items := items } : SalesOrder)]).map
              (fun o => if o.id = db.nextSalesOrderId then
                 { o with status := "cancelled" } else o)).find?
              (fun o => o.id = db.nextSalesOrderId)).map (fun o => o.status) =
            some "cancelled"
          rw [find?_sales_update_status, hfind1]
          simp
      · simp only [hempty, Bool.false_eq_true, if_false, hfail, Bool.true_eq_false,
          if_false] at hok
        exact Except.noConfusion hok
  · intro id order hord hstatus
    have herr : ∃ e, cancelSalesOrder db id = .error e ∧ e.statusCode = 400 := by
      rcases hstatus with hc | hc
      · refine ⟨{ message := "Order is already cancelled", statusCode := 400 }, ?_, rfl⟩
        unfold cancelSalesOrder
        simp only [hord]
        rw [if_pos hc]
      · refine ⟨{ message := "Cannot cancel a completed order", statusCode := 400 },
          ?_, rfl⟩
        unfold cancelSalesOrder
        simp only [hord]
        have hnc : ¬ order.status = "cancelled" := by
          rw [hc]
          decide
        rw [if_neg hnc, if_pos hc]
    refine ⟨herr, ?_⟩
    obtain ⟨e, he, _⟩ := herr
    simp [applyOps, applyOp, he, Except.map]

/-- Witness for C4: creating a two-item order in the sample database and
cancelling it restores the stock lists exactly, and cancelling the already
cancelled order 2 fails with a 400 error and changes nothing. -/
theorem createSalesOrder_cancel_roundtrip_witness :
    (∃ order db1, createSalesOrder sampleDB 9
        [{ productId := 1, quantity := 3, unitPrice := 10 },
         { productId := 2, quantity := 1, unitPrice := 8 }] = .ok (order, db1) ∧
      ∃ o2 db2, cancelSalesOrder db1 order.id = .ok (o2, db2) ∧
        db2.stocks = sampleDB.stocks ∧ o2.status = "cancelled") ∧
    applyOps sampleDB [.cancelSalesOrder 2] = sampleDB := by
  constructor
  · refine ⟨_, _, rfl, ?_⟩
    obtain ⟨o2, db2, hcan, hstocks, hstat, _⟩ :=
      (createSalesOrder_cancel_roundtrip sampleDB).1 9
        [{ productId := 1, quantity := 3, unitPrice := 10 },
         { productId := 2, quantity := 1, unitPrice := 8 }] _ _
        (by decide) (by decide) rfl
    exact ⟨o2, db2, hcan, hstocks, hstat⟩
  · exact ((createSalesOrder_cancel_roundtrip sampleDB).2 2
      { id := 2, customerId := 1, status := "cancelled",
        items := [{ productId := 1, quantity := 1, unitPrice := 10 }] }
      rfl (Or.inl rfl)).2

/-- C8 (counterexample): the initial migration declares no unique index on
the `Stock` table — its `CREATE UNIQUE INDEX` statements cover only
User.username, Category.name, Supplier.email, Product.sku and
Product.barcode — and the per-(productId, locationId) uniqueness of
`Stock` and the sku/barcode uniqueness checks are performed by the
application itself: `createStock` and `createProduct` throw their own 400
`AppError`s on duplicates, refuting "enforced by the database/ORM, not by
custom application logic" and "the application code performs no
uniqueness checks of its own". -/
theorem stock_uniqueness_app_enforced_counterexample :
    migrationUniqueIndexes.filter (fun ti => ti.1 = "Stock") = [] ∧
    createStock sampleDB 1 1 1 7 =
      .error { message := "Stock already exists for this product in this location",
               statusCode := 400 } ∧
    createProduct sampleDB
      { name := "X", sku := "SKU1", barcode := "BC1", categoryId := 1,
        supplierId := 1, warehouseId := 1, unitPrice := 1, price := 1 } =
      .error { message := "Product with same SKU already exists", statusCode := 400 } :=
  ⟨rfl, rfl, rfl⟩

/-- C8 (amended): the uniqueness invariant itself does hold in every state
reachable through the service operations: starting from a state with at
most one Stock row per (productId, locationId), every sequence of service
operations preserves that property (createStock and transferStock insert
a row only after their application-level `findFirst` check comes back
empty). -/
theorem stock_key_uniqueness (db : DB) (ops : List Op)
    (h : StockKeyUnique db) : StockKeyUnique (applyOps db ops) := by
  induction ops generalizing db with
  | nil => exact h
  | cons op rest ih =>
    show StockKeyUnique (match applyOp db op with
      | .ok db1 => applyOps db1 rest
      | .error _ => applyOps db rest)
    cases happ : applyOp db op with
    | error e => exact ih db h
    | ok db1 =>
      refine ih db1 ?_
      obtain ⟨-, hsh⟩ := applyOp_shape db db1 op happ
      have hcomp : ∀ l : List Stock,
          l.map (fun s => (s.productId, s.locationId)) =
          (l.map stripQ).map (fun t => (t.2.1, t.2.2.2)) := by
        intro l
        rw [List.map_map]
        rfl
      unfold StockKeyUnique at h ⊢
      rcases hsh with heq | ⟨new, heq, hnone, -⟩
      · rw [hcomp, heq, ← hcomp]
        exact h
      · rw [hcomp, heq, List.map_append, ← hcomp]
        rw [List.nodup_append]
        refine ⟨h, by simp, ?_⟩
        intro a ha
        rcases List.mem_map.mp ha with ⟨s, hs, rfl⟩
        have hne := List.find?_eq_none.mp hnone s hs
        simp only [decide_eq_true_eq] at hne
        simp only [List.map_cons, List.map_nil, List.mem_singleton]
        intro hcontra
        have h1 : s.productId = new.productId := congrArg Prod.fst hcontra
        have h2 : s.locationId = new.locationId := congrArg Prod.snd hcontra
        exact hne ⟨h1, h2⟩

/-- Witness for C8's amended invariant: the sample database has unique
(productId, locationId) pairs and keeps them unique through a transfer
that creates a new stock row. -/
theorem stock_key_uniqueness_witness :
    StockKeyUnique (applyOps sampleDB [.transferStock 1 3 2 "mv"]) :=
  stock_key_uniqueness sampleDB [.transferStock 1 3 2 "mv"]
    (by unfold StockKeyUnique; decide)

/-- C10: every Stock row's warehouseId equals the warehouseId of the
Location it references, in every state reachable through the stock
operations: the invariant is preserved by every operation (createStock
validates the location against the warehouse and transferStock creates
the target row with the target location's own warehouseId), and
createStock rejects with a 400 AppError any request whose locationId is
unknown or does not belong to the given warehouseId. -/
theorem stock_location_consistency (db : DB) :
    (∀ ops, StockLocationConsistent db →
      StockLocationConsistent (applyOps db ops)) ∧
    (∀ productId warehouseId locationId quantity,
      (db.locations.find? (fun l => l.id = locationId) = none ∨
       ∃ location, db.locations.find? (fun l => l.id = locationId) = some location ∧
         location.warehouseId ≠ warehouseId) →
      createStock db productId warehouseId locationId quantity =
        .error { message := "Invalid location for warehouse", statusCode := 400 }) := by
  constructor
  · intro ops
    induction ops generalizing db with
    | nil => exact fun h => h
    | cons op rest ih =>
      intro h
      show StockLocationConsistent (match applyOp db op with
        | .ok db1 => applyOps db1 rest
        | .error _ => applyOps db rest)
      cases happ : applyOp db op with
      | error e => exact ih db h
      | ok db1 =>
        refine ih db1 ?_
        obtain ⟨hlocs, hsh⟩ := applyOp_shape db db1 op happ
        have hmem : ∀ (l l' : List Stock), l.map stripQ = l'.map stripQ →
            ∀ s' ∈ l, ∃ s ∈ l', stripQ s = stripQ s' := by
          intro l l' he s' hs'
          have hmm : stripQ s' ∈ l'.map stripQ := he ▸ List.mem_map_of_mem stripQ hs'
          rcases List.mem_map.mp hmm with ⟨s, hs, hse⟩
          exact ⟨s, hs, hse⟩
        intro s' hs'
        rw [hlocs]
        rcases hsh with heq | ⟨new, heq, -, hware⟩
        · obtain ⟨s, hs, hse⟩ := hmem db1.stocks db.stocks heq s' hs'
          have hloc : s.locationId = s'.locationId :=
            congrArg (fun t => t.2.2.2) hse
          have hwid : s.warehouseId = s'.warehouseId :=
            congrArg (fun t => t.2.2.1) hse
          rw [← hloc, ← hwid]
          exact h s hs
        · have heq2 : db1.stocks.map stripQ = (db.stocks ++ [new]).map stripQ := by
            rw [heq, List.map_append]
            rfl
          obtain ⟨s, hs, hse⟩ := hmem db1.stocks (db.stocks ++ [new]) heq2 s' hs'
          have hloc : s.locationId = s'.locationId :=
            congrArg (fun t => t.2.2.2) hse
          have hwid : s.warehouseId = s'.warehouseId :=
            congrArg (fun t => t.2.2.1) hse
          rw [← hloc, ← hwid]
          rcases List.mem_append.mp hs with hmem2 | hmem2
          · exact h s hmem2
          · rw [List.mem_singleton.mp hmem2]
            exact hware
  · intro productId warehouseId locationId quantity hbad
    rcases hbad with hnone | ⟨location, hloc, hne⟩
    · unfold createStock
      simp only [hnone]
    · unfold createStock
      simp only [hloc]
      rw [if_pos hne]

/-- Witness for C10: in the sample database the consistency invariant
survives a transfer that creates a row in the other warehouse, and
creating stock at location 3 (warehouse 2) against warehouse 1 is
rejected. -/
theorem stock_location_consistency_witness :
    StockLocationConsistent (applyOps sampleDB [.transferStock 1 3 2 "mv"]) ∧
    createStock sampleDB 2 1 3 4 =
      .error { message := "Invalid location for warehouse", statusCode := 400 } :=
  ⟨(stock_location_consistency sampleDB).1 [.transferStock 1 3 2 "mv"]
      (by unfold StockLocationConsistent; decide),
   (stock_location_consistency sampleDB).2 2 1 3 4
      (Or.inr ⟨{ id := 3, name := "B1", warehouseId := 2 }, rfl, by decide⟩)⟩

/-- C6: every error value given to the error middleware is answered as the
spec says: an `AppError` with its own `statusCode` and `message`; a Prisma
known-request error with status 400 and a generic message, namely
"A unique constraint violation occurred" for code P2002 and "Database
operation failed" for every other code; and every other error with status
500 and the message "Internal server error". -/
theorem errorHandler_response_spec :
    (∀ e : AppError,
        errorHandler (.appError e) = { status := e.statusCode, message := e.message }) ∧
    (∀ code message, errorHandler (.prismaKnownRequestError code message) =
        if code = "P2002" then
          { status := 400, message := "A unique constraint violation occurred" }
        else
          { status := 400, message := "Database operation failed" }) ∧
    (∀ message, errorHandler (.otherError message) =
        { status := 500, message := "Internal server error" }) := by
  refine ⟨fun e => rfl, fun code message => ?_, fun message => rfl⟩
  by_cases h : code = "P2002" <;> simp [errorHandler, h]

/-- C7: for every list of allowed roles and every request, the middleware
produced by `authorize` passes the request through (calls `next()` with no
error) exactly when the request carries an authenticated user whose role
is in the allowed list; every rejection is with an `AppError` of status
403 and message "Not authorized to access this resource", and a request
with no authenticated user is always rejected that way. -/
theorem authorize_pass_iff_allowed :
    ∀ (allowedRoles : List String) (user : Option AuthUser),
      (authorize allowedRoles user = none ↔
        ∃ u, user = some u ∧ u.role ∈ allowedRoles) ∧
      (authorize allowedRoles user = none ∨
        authorize allowedRoles user =
          some { message := "Not authorized to access this resource", statusCode := 403 }) ∧
      authorize allowedRoles none =
        some { message := "Not authorized to access this resource", statusCode := 403 } := by
  intro allowedRoles user
  refine ⟨?_, ?_, rfl⟩
  · constructor
    · intro h
      match user with
      | none => simp [authorize] at h
      | some u =>
        refine ⟨u, rfl, ?_⟩
        by_cases hc : u.role ∈ allowedRoles
        · exact hc
        · simp [authorize, hc] at h
    · rintro ⟨u, rfl, hu⟩
      simp [authorize, hu]
  · match user with
    | none => exact Or.inr rfl
    | some u =>
      by_cases hc : u.role ∈ allowedRoles
      · exact Or.inl (by simp [authorize, hc])
      · exact Or.inr (by simp [authorize, hc])

end Inventory
